import Mathlib

/-!
Verification of the mcp-bundler service (TypeScript) against its
natural-language specification.

The development shallow-embeds the relevant source functions:

* `parseMonorepoUrl` (src/utils/index.ts and src/v1/bundler.ts): the
  repository Locator, embedded as a deterministic parser equivalent to the
  anchored JavaScript regular expression used by the source.
* `buildMCPServer` (src/v1/bundler.ts): the v1 build pipeline, embedded as a
  state-and-exception program over an abstract filesystem, an event trace and
  an environment oracle that supplies the outcome of every external command.
* the `/bundler` and `/v2/bundler` route handlers (src/index.ts), embedded as
  pure functions from query parameters and an environment to a response
  record, including the commit-hash scraping cascade of the v2 handler.
* `src/v2/bundler.ts` is imported by src/index.ts but is not part of the
  available source tree; the few facts that depend on it are modelled from
  the specification and are marked as such in their doc comments.

Machine integers play no role; all data is strings, lists and booleans.
-/
/-! ## Character-list utilities (JavaScript string/regex primitives) -/
/-- `begins needle hay` is true when `needle` is an initial run of `hay`. -/
def begins : List Char → List Char → Bool
  | [], _ => true
  | _ :: _, [] => false
  | a :: as, b :: bs => a = b && begins as bs

/-- Remove the literal run `p` from the front of `s`, or fail. -/
def stripLead : List Char → List Char → Option (List Char)
  | [], s => some s
  | _ :: _, [] => none
  | a :: as, b :: bs => if a = b then stripLead as bs else none

/-- `containsSub needle hay`: `needle` occurs contiguously somewhere in `hay`
(JavaScript `String.prototype.includes`). -/
def containsSub (needle : List Char) : List Char → Bool
  | [] => begins needle []
  | c :: cs => begins needle (c :: cs) || containsSub needle cs

/-- `strContains hay needle` lifts `containsSub` to `String`. -/
def strContains (hay needle : String) : Bool :=
  containsSub needle.data hay.data

/-- Split a character list at the first `/`: the returned first component is
the (possibly empty) run of non-slash characters, the second the rest
starting with the slash when one exists.  This is the deterministic content
of the regex fragment `[^/]+` followed by `/` or the end of input. -/
def takeSeg : List Char → List Char × List Char
  | [] => ([], [])
  | c :: cs =>
    if c = '/' then ([], c :: cs)
    else
      let p := takeSeg cs
      (c :: p.1, p.2)

/-- Line terminators that the JavaScript regex metacharacter `.` does not
match: LF, CR, U+2028, U+2029. -/
def lineTerm (c : Char) : Bool :=
  c = Char.ofNat 10 || c = Char.ofNat 13 || c = Char.ofNat 0x2028 || c = Char.ofNat 0x2029

/-- String concatenation used for `path.join(a, b)` in the source; for the
relative second components the source passes, Node's join is plain
`a ++ "/" ++ b`. -/
def pathJoin (a b : String) : String := a ++ "/" ++ b

/-- `strEnds s suffix` models `String.prototype.endsWith`. -/
def strEnds (s suffix : String) : Bool :=
  begins suffix.data.reverse s.data.reverse

/-! ## The repository Locator: `parseMonorepoUrl`

Source (identical in src/utils/index.ts lines 57-78 and src/v1/bundler.ts
lines 56-77): the input is matched against the anchored regex

  `^(https?:\/\/github\.com\/[^/]+\/[^/]+)(?:\/tree\/([^/]+)(?:\/(.*))?)?$`

On failure the input is returned unchanged as `baseRepoUrl`; on success the
three groups become `baseRepoUrl`, `branch` and `subDir`, the latter two
coerced through `x || undefined` so an empty capture becomes absent.  The
embedding below is a deterministic parser for exactly that regex: the
character classes `[^/]+` exclude the slash so the regex admits no
backtracking ambiguity, and `(.*)` matches every character except the four
JavaScript line terminators and must reach the anchored end. -/
/-- Consume `http://github.com/` or `https://github.com/` (the regex part
`https?:\/\/github\.com\/`), returning the consumed characters and the rest. -/
def stripSchemeHost (s : List Char) : Option (List Char × List Char) :=
  match stripLead ("http".data) s with
  | none => none
  | some r1 =>
    match r1 with
    | [] => none
    | c :: r2 =>
      if c = 's' then
        match stripLead ("://github.com/".data) r2 with
        | some r3 => some (("https://github.com/").data, r3)
        | none => none
      else
        match stripLead ("://github.com/".data) (c :: r2) with
        | some r3 => some (("http://github.com/").data, r3)
        | none => none

/-- Match the optional `(?:\/tree\/([^/]+)(?:\/(.*))?)?$` tail: either the
end of input, or `/tree/` followed by a non-empty slash-free branch and an
optional `/`-prefixed subpath that must contain no line terminator. -/
def tailPart (r : List Char) : Option (Option (List Char) × Option (List Char)) :=
  match r with
  | [] => some (none, none)
  | _ :: _ =>
    match stripLead ("/tree/".data) r with
    | none => none
    | some r2 =>
      let p := takeSeg r2
      if p.1 = [] then none
      else
        match p.2 with
        | [] => some (some p.1, none)
        | _ :: sub =>
          if sub.all (fun c => !(lineTerm c)) then some (some p.1, some sub) else none

/-- Whole-regex match: returns `(group1, group2, group3)` on success. -/
def matchGithub (s : List Char) : Option (List Char × Option (List Char) × Option (List Char)) :=
  match stripSchemeHost s with
  | none => none
  | some (pre, r1) =>
    let po := takeSeg r1
    if po.1 = [] then none
    else
      match po.2 with
      | [] => none
      | c :: r3 =>
        let pr := takeSeg r3
        if pr.1 = [] then none
        else
          match tailPart pr.2 with
          | none => none
          | some (br, sub) => some (pre ++ po.1 ++ c :: pr.1, br, sub)

/-- The record returned by `parseMonorepoUrl`. -/
structure RepoParts where
  baseRepoUrl : String
  branch : Option String := none
  subDir : Option String := none
deriving Repr, DecidableEq

/-- JavaScript `x || undefined` on an optional capture: an empty string is
falsy and becomes absent. -/
def jsOrUndef : Option (List Char) → Option (List Char)
  | none => none
  | some l => if l = [] then none else some l

/-- Embedding of `parseMonorepoUrl` (src/utils/index.ts 57-78,
src/v1/bundler.ts 56-77). -/
def parseMonorepoUrl (githubUrl : String) : RepoParts :=
  match matchGithub githubUrl.data with
  | none => { baseRepoUrl := githubUrl }
  | some (base, br, sub) =>
    { baseRepoUrl := String.mk base
      branch := (jsOrUndef br).map String.mk
      subDir := (jsOrUndef sub).map String.mk }

/-! ## Characterization of the Locator on symbolic inputs -/
/-- The characters consumed by the scheme-and-host part of the regex. -/
def hostChars (secure : Bool) : List Char :=
  if secure then "https://github.com/".data else "http://github.com/".data

/-- A plain repository URL `http(s)://github.com/<owner>/<repo>`. -/
def plainUrlChars (secure : Bool) (owner repo : List Char) : List Char :=
  hostChars secure ++ owner ++ '/' :: repo

/-- A `/tree/`-annotated URL, with an optional subpath component. -/
def annUrlChars (secure : Bool) (owner repo br : List Char) (sub : Option (List Char)) :
    List Char :=
  plainUrlChars secure owner repo ++ "/tree/".data ++ br ++
    (match sub with | none => [] | some s => '/' :: s)

/-! ## The v1 build pipeline: `buildMCPServer` (src/v1/bundler.ts 79-451)

The pipeline is embedded as a program in a state-and-exception monad `Act`.
The state carries an abstract filesystem, a tick counter numbering the
external commands issued so far, and a trace of observable events (external
commands and filesystem operations).  An environment oracle `Env` supplies
the outcome of every external command as a function of the tick, the working
directory and the command line, so that the n-th external command of a run
may succeed or fail independently of the others; a timeout of an external
operation is a failure outcome whose message contains `timed out`, exactly
as `withTimeout` produces it in the source.  JSON parsing and printing of
tsconfig.json and package.json are oracle functions of the environment.
Filesystem writes always succeed; a successful `git clone` materializes the
environment's repository snapshot under the scratch directory, and a
successful bundling command materializes the environment's bundle output.
Console logging, performance markers and the Sentry error-tracking calls
have no effect on control flow in the source and are not modelled. -/
/-- Abstract filesystem: an association list of files (later entries are
shadowed by earlier ones) and a list of directories. -/
structure FS where
  files : List (String × String)
  dirs : List String
deriving Repr, DecidableEq

/-- Read a file: first binding wins. -/
def readF (fs : FS) (p : String) : Option String :=
  (fs.files.find? (fun kv => kv.1 = p)).map (fun kv => kv.2)

/-- Does a file exist? -/
def fileExistsB (fs : FS) (p : String) : Bool :=
  (readF fs p).isSome

/-- Write (create or overwrite) a file. -/
def writeF (fs : FS) (p c : String) : FS :=
  { fs with files := (p, c) :: fs.files }

/-- `p` is the directory `dir` itself or lies beneath it. -/
def underPath (dir p : String) : Bool :=
  p = dir || begins (dir ++ "/").data p.data

/-- `rm -rf dir`: drop the directory and everything beneath it. -/
def FS.rmrf (fs : FS) (dir : String) : FS :=
  { files := fs.files.filter (fun kv => !(underPath dir kv.1))
    dirs := fs.dirs.filter (fun d => !(underPath dir d)) }

/-- Observable events of a build. -/
inductive Ev where
  | exec (cwd cmd : String)
  | fsRead (p : String)
  | fsWrite (p c : String)
  | fsAccess (p : String)
  | mkdir (p : String)
  | rm (p : String)
  | cp (src dst : String)
  | copyFile (src dst : String)
  | stat (p : String)
  | unlink (p : String)
  | upload (src dst : String)
deriving Repr, DecidableEq

/-- Build-time state: filesystem, external-command counter, event trace. -/
structure St where
  fs : FS
  tick : Nat
  trace : List Ev
deriving Repr, DecidableEq

/-- Outcome of one external command (`execAsync`): captured stdout, or a
rejection carrying the error message. -/
inductive ExecRes where
  | ok (stdout : String)
  | fail (msg : String)
deriving Repr, DecidableEq

/-- Parsed tsconfig.json: the two compilerOptions sub-fields the source
touches, plus an opaque remainder preserved by the parse/print oracle. -/
structure TsConfig where
  target : Option String := none
  lib : List String := []
  restKey : String := ""
deriving Repr, DecidableEq

/-- The `bin` field of package.json: absent, a single string, or a map. -/
inductive BinDecl where
  | noneB
  | single (p : String)
  | mapB (entries : List (String × String))
deriving Repr, DecidableEq

/-- Parsed package.json fields the pipelines read. -/
structure PackageJson where
  main : Option String := none
  bin : BinDecl := .noneB
  /-- The `scripts.build` field (v2 build-script step). -/
  scriptsBuild : Option String := none
deriving Repr, DecidableEq

/-- Environment oracle for one v1 build. -/
structure Env where
  /-- Outcome of the n-th external command, given its cwd and command line. -/
  run : Nat → String → String → ExecRes
  /-- Repository contents materialized by a successful clone, as paths
  relative to the scratch directory. -/
  repoFiles : List (String × String)
  /-- JSON.parse on a tsconfig.json text (`none` = parse throws). -/
  parseTsconfig : String → Option TsConfig
  /-- JSON.stringify of a tsconfig object. -/
  printTsconfig : TsConfig → String
  /-- JSON.parse on a package.json text (`none` = parse throws). -/
  parsePkg : String → Option PackageJson
  /-- The hex tail of the scratch directory name (crypto.randomBytes(8)). -/
  tmpRand : String
  /-- Contents of the bundle file produced by a successful bundling command. -/
  bundleOut : String
  /-- The 20 bytes drawn by `crypto.randomBytes(20)` for the fallback
  revision of the v2 pipeline. -/
  randBytes20 : Fin 20 → Nat := fun _ => 0
  /-- The hex tail of the archive staging directory name
  (crypto.randomBytes(8) in createTarGzArchive). -/
  tmpRand2 : String := "00"
  /-- Contents of the tar.gz archive produced by a successful tar command. -/
  archiveBytes : String := ""
  /-- Whether the Cloud Storage upload library call of the v2 Publisher
  succeeds. -/
  upOk : Bool := true

/-- State-and-exception monad of the embedding: exceptions carry the
JavaScript error message and preserve the state reached so far. -/
def Act (α : Type) : Type := St → Except String α × St

/-- Return. -/
def Act.ret {α : Type} (a : α) : Act α := fun st => (.ok a, st)

/-- Sequencing. -/
def Act.bind {α β : Type} (x : Act α) (f : α → Act β) : Act β := fun st =>
  match x st with
  | (.ok a, st2) => f a st2
  | (.error e, st2) => (.error e, st2)

/-- `throw new Error(msg)`. -/
def Act.throwA {α : Type} (e : String) : Act α := fun st => (.error e, st)

/-- `try x catch (e) h(e)`. -/
def Act.tryCatch {α : Type} (x : Act α) (h : String → Act α) : Act α := fun st =>
  match x st with
  | (.error e, st2) => h e st2
  | r => r

/-- Issue an external command through `execAsync`; records the event,
advances the tick, and succeeds or rejects as the oracle dictates. -/
def execCmd (env : Env) (cwd cmd : String) : Act String := fun st =>
  let st2 : St := { st with trace := st.trace ++ [Ev.exec cwd cmd], tick := st.tick + 1 }
  match env.run st.tick cwd cmd with
  | .ok out => (.ok out, st2)
  | .fail m => (.error m, st2)

/-- `fs.readFile(p, "utf-8")`. -/
def fsReadFile (p : String) : Act String := fun st =>
  let st2 : St := { st with trace := st.trace ++ [Ev.fsRead p] }
  match readF st.fs p with
  | some c => (.ok c, st2)
  | none => (.error ("ENOENT: no such file " ++ p), st2)

/-- `fs.writeFile(p, c)`. -/
def fsWriteFile (p c : String) : Act Unit := fun st =>
  (.ok (), { st with fs := writeF st.fs p c, trace := st.trace ++ [Ev.fsWrite p c] })

/-- `fs.access(p)`. -/
def fsAccess (p : String) : Act Unit := fun st =>
  let st2 : St := { st with trace := st.trace ++ [Ev.fsAccess p] }
  if fileExistsB st.fs p then (.ok (), st2)
  else (.error ("ENOENT: no access " ++ p), st2)

/-- `fs.mkdir(p)`. -/
def fsMkdir (p : String) : Act Unit := fun st =>
  let fs2 : FS := { st.fs with dirs := p :: st.fs.dirs }
  (.ok (), { st with fs := fs2, trace := st.trace ++ [Ev.mkdir p] })

/-- Materialize the cloned repository under the scratch directory. -/
def installRepoFiles (env : Env) (tempDir : String) : Act Unit := fun st =>
  (.ok (), { st with fs :=
    { st.fs with files := env.repoFiles.map (fun kv => (pathJoin tempDir kv.1, kv.2)) ++ st.fs.files } })

/-- Stage 1 (src/v1/bundler.ts 96-123): append `.git` when absent, clone
with a timeout, rethrow `git: command not found` as a distinct fatal
configuration error, rethrow everything else unchanged. -/
def cloneStage (env : Env) (tempDir base : String) : Act Unit :=
  let cloneUrl := if strEnds base ".git" then base else base ++ ".git"
  Act.tryCatch
    (Act.bind (execCmd env tempDir ("git clone " ++ cloneUrl ++ " " ++ tempDir))
      (fun _ => installRepoFiles env tempDir))
    (fun e =>
      if strContains e "git: command not found" then
        Act.throwA "Git is not installed. Please install git in your environment."
      else Act.throwA e)

/-- Stage 1b (src/v1/bundler.ts 125-150): when a commit is requested, try to
check it out; on failure, warn and query the default branch with
`git rev-parse --abbrev-ref HEAD`.  The source awaits that query outside any
try/catch, so its failure escapes the stage. -/
def checkoutStep (env : Env) (tempDir : String) : Option String → Act Unit
  | none => Act.ret ()
  | some c =>
    Act.tryCatch
      (Act.bind (execCmd env tempDir ("git checkout " ++ c)) (fun _ => Act.ret ()))
      (fun _ =>
        Act.bind (execCmd env tempDir "git rev-parse --abbrev-ref HEAD")
          (fun _ => Act.ret ()))

/-- Stage 2 (src/v1/bundler.ts 152-177): `bun install`, falling back to
`npm install`, both failures swallowed. -/
def installStage (env : Env) (installDir : String) : Act Unit :=
  Act.tryCatch
    (Act.bind (execCmd env installDir "bun install") (fun _ => Act.ret ()))
    (fun _ =>
      Act.tryCatch
        (Act.bind (execCmd env installDir "npm install") (fun _ => Act.ret ()))
        (fun _ => Act.ret ()))

/-- The tsconfig repair of src/v1/bundler.ts 203-244: read tsconfig.json,
back it up, patch `compilerOptions.target`/`lib`, retry `bun run tsc`
(outcome swallowed), then restore the original text; any error inside the
repair itself is swallowed by the `configError` catch. -/
def tsconfigFix (env : Env) (installDir : String) : Act Unit :=
  let tsPath := pathJoin installDir "tsconfig.json"
  Act.tryCatch
    (Act.bind (fsReadFile tsPath) (fun content =>
      match env.parseTsconfig content with
      | none => Act.throwA "Unexpected token in JSON"
      | some cfg =>
        Act.bind (fsWriteFile (tsPath ++ ".backup") content) (fun _ =>
        Act.bind (fsWriteFile tsPath
            (env.printTsconfig { cfg with target := some "ES2022", lib := ["ES2022", "DOM"] }))
          (fun _ =>
        Act.bind (Act.tryCatch
            (Act.bind (execCmd env installDir "bun run tsc") (fun _ => Act.ret ()))
            (fun _ => Act.ret ()))
          (fun _ => fsWriteFile tsPath content)))))
    (fun _ => Act.ret ())

/-- Stage 3 (src/v1/bundler.ts 179-246): best-effort `bun run tsc`; on a
failure whose message mentions `Symbol.dispose`, run the tsconfig repair;
every other failure is swallowed. -/
def typecheckStage (env : Env) (installDir : String) : Act Unit :=
  Act.tryCatch
    (Act.bind (execCmd env installDir "bun run tsc") (fun _ => Act.ret ()))
    (fun e =>
      if strContains e "Symbol.dispose" then tsconfigFix env installDir
      else Act.ret ())

/-- The fixed conventional entrypoint candidates (src/v1/bundler.ts 250-256). -/
def possibleEntrypoints : List String :=
  ["index.ts", "index.js", "src/index.ts", "src/index.js", "src/mcp-server.ts"]

/-- The probing loop of src/v1/bundler.ts 258-266: first candidate that
passes `fs.access` wins. -/
def findConventional (installDir : String) : List String → Act (Option String)
  | [] => Act.ret none
  | f :: rest =>
    Act.tryCatch
      (Act.bind (fsAccess (pathJoin installDir f)) (fun _ => Act.ret (some f)))
      (fun _ => findConventional installDir rest)

/-- Normalize a manifest path: strip a leading `./` (src/v1/bundler.ts
278-280). -/
def normMain (s : String) : String :=
  if begins "./".data s.data then String.mk (s.data.drop 2) else s

/-- Entrypoint resolution of src/v1/bundler.ts 248-295: probe the
conventional candidates; if none exists, read package.json and try its
`main` field, normalized and existence-checked; failures while reading the
manifest are swallowed, leaving no entrypoint. -/
def resolveEntrypoint (env : Env) (installDir : String) : Act (Option String) :=
  Act.bind (findConventional installDir possibleEntrypoints) (fun e1 =>
    match e1 with
    | some e => Act.ret (some e)
    | none =>
      Act.tryCatch
        (Act.bind (fsReadFile (pathJoin installDir "package.json")) (fun pj =>
          match env.parsePkg pj with
          | none => Act.throwA "Unexpected token in JSON"
          | some pkg =>
            match pkg.main with
            | some mainPath =>
              if mainPath = "" then Act.ret none
              else
                Act.bind (fsAccess (pathJoin installDir (normMain mainPath)))
                  (fun _ => Act.ret (some (normMain mainPath)))
            | none => Act.ret none))
        (fun _ => Act.ret none))

/-- Stage 4 (src/v1/bundler.ts 297-392): bundle with bun, then with a
preinstalled esbuild, then with a freshly installed esbuild; exhausting the
chain throws the descriptive fatal error; the enclosing catch reports to
Sentry and rethrows. -/
def bundleStage (env : Env) (installDir entrypoint fmt : String) : Act Unit :=
  let target := pathJoin installDir entrypoint
  let linkage := if fmt = "mjs" then "esm" else "cjs"
  let bunCmd := "bun build " ++ target ++ " --outfile bundle." ++ fmt ++
    " --target node --format " ++ linkage
  let esCmd := "npx esbuild " ++ target ++ " --bundle --platform=node --outfile=bundle." ++
    fmt ++ " --format=" ++ linkage
  let writeBundle := fsWriteFile (pathJoin installDir ("bundle." ++ fmt)) env.bundleOut
  Act.tryCatch
    (Act.tryCatch
      (Act.bind (execCmd env "" "which bun") (fun _ =>
       Act.bind (execCmd env installDir bunCmd) (fun _ => writeBundle)))
      (fun _ =>
        Act.tryCatch
          (Act.bind (execCmd env "" "npx --no-install esbuild --version") (fun _ =>
           Act.bind (execCmd env installDir esCmd) (fun _ => writeBundle)))
          (fun _ =>
            Act.tryCatch
              (Act.bind (execCmd env installDir "npm install --no-save esbuild") (fun _ =>
               Act.bind (execCmd env installDir esCmd) (fun _ => writeBundle)))
              (fun finalErr => Act.throwA ("Failed to bundle: " ++ finalErr)))))
    (fun e => Act.throwA e)

/-- The body of the outer `try` of `buildMCPServer` (src/v1/bundler.ts
93-431), with the scratch directory name already fixed. -/
def buildBody (env : Env) (base : String) (subDir : Option String) (fmt : String)
    (commit : Option String) (tempDir : String) : Act String :=
  Act.bind (fsMkdir tempDir) (fun _ =>
  Act.bind (cloneStage env tempDir base) (fun _ =>
  Act.bind (checkoutStep env tempDir commit) (fun _ =>
  let installDir := match subDir with
    | some sd => pathJoin tempDir sd
    | none => tempDir
  Act.bind (installStage env installDir) (fun _ =>
  Act.bind (typecheckStage env installDir) (fun _ =>
  Act.bind (resolveEntrypoint env installDir) (fun eOpt =>
    match eOpt with
    | none => Act.throwA "No valid entrypoint file found"
    | some entrypoint =>
      Act.bind (bundleStage env installDir entrypoint fmt) (fun _ =>
        fsReadFile (pathJoin installDir ("bundle." ++ fmt)))))))))

instance {ε α : Type} [DecidableEq ε] [DecidableEq α] : DecidableEq (Except ε α) := fun x y =>
  match x, y with
  | .ok a, .ok b => decidable_of_iff (a = b) (by simp)
  | .ok _, .error _ => isFalse (by simp)
  | .error _, .ok _ => isFalse (by simp)
  | .error e, .error f => decidable_of_iff (e = f) (by simp)

/-- Result of one whole build: outcome, final filesystem, event trace. -/
structure BuildOut where
  result : Except String String
  fs : FS
  trace : List Ev
deriving Repr, DecidableEq

/-- `buildMCPServer` on an already-parsed locator result: run the body, map
every escaping error to the generic fatal message (outer catch, line 447),
and remove the scratch directory unconditionally (the `finally`, line 449). -/
def buildFrom (env : Env) (base : String) (subDir : Option String) (fmt : String)
    (commit : Option String) : BuildOut :=
  let tempDir := "/tmp/mcp-" ++ env.tmpRand
  let wrapped := Act.tryCatch (buildBody env base subDir fmt commit tempDir)
    (fun _ => Act.throwA "Failed to build the server code.")
  let out := wrapped { fs := { files := [], dirs := [] }, tick := 0, trace := [] }
  { result := out.1
    fs := FS.rmrf out.2.fs tempDir
    trace := out.2.trace ++ [Ev.rm tempDir] }

/-- Embedding of `buildMCPServer` (src/v1/bundler.ts 79-451).  The source
destructures the Locator result into `baseRepoUrl`, `branch` and `subDir`
and consumes only the first and the last. -/
def buildMCPServer (env : Env) (githubUrl fmt : String) (commit : Option String) : BuildOut :=
  let pr := parseMonorepoUrl githubUrl
  buildFrom env pr.baseRepoUrl pr.subDir fmt commit

/-- Environment for the C6 counterexample: the clone succeeds, the commit
checkout fails, and the subsequent default-branch query also fails. -/
def envC6 : Env :=
  { run := fun _ _ cmd =>
      if strContains cmd "git clone" then .ok ""
      else if strContains cmd "git checkout" then .fail "fatal: reference is not a tree"
      else .fail "fatal: ambiguous argument HEAD"
    repoFiles := []
    parseTsconfig := fun _ => none
    printTsconfig := fun _ => ""
    parsePkg := fun _ => none
    tmpRand := "0011223344556677"
    bundleOut := "" }

/-- Environment for the C6 witness: checkout fails, recovery succeeds. -/
def envC6w : Env :=
  { run := fun t _ _ => if t = 1 then .ok "main" else .fail "fatal: reference is not a tree"
    repoFiles := []
    parseTsconfig := fun _ => none
    printTsconfig := fun _ => ""
    parsePkg := fun _ => none
    tmpRand := "0011223344556677"
    bundleOut := "" }

/-- Environment for the C5 witness. -/
def envC5w : Env :=
  { run := fun _ _ _ => .fail "error TS2318: Cannot find global type Symbol.dispose"
    repoFiles := []
    parseTsconfig := fun s => if s = "{}" then some {} else none
    printTsconfig := fun cfg => if cfg.target = some "ES2022" then "patched" else "other"
    parsePkg := fun _ => none
    tmpRand := "00"
    bundleOut := "" }

/-! ## The v2 build pipeline: `buildMCPServer` (src/v2/bundler.ts, the
fourth document concatenated into src/.env.example, lines 192-935 of that
file; line references below are to .env.example)

The v2 pipeline shares the utils of the v1 pipeline and is embedded over
the same `Act` monad and `Env` oracle.  It differs from v1 in: a platform
matrix pre-fetch before the primary install, `--noEmitOnError false`
compilation with an `npx tsc` retry, a seven-entry conventional entrypoint
list preceded by a conditional build-script run, a `bin`-then-`main`
manifest fallback, a fixed `mjs`/`esm` bundle command with
`--packages external`, commit-hash resolution via `git rev-parse HEAD`
with a random 40-hex fallback, a `// COMMIT_HASH:` marker prepended to the
upload-mode result, and an archive-and-publish stage whose failures are
all swallowed. -/

/-- The seven conventional entrypoint candidates of the v2 pipeline
(.env.example 485-493). -/
def possibleEntrypointsV2 : List String :=
  ["index.ts", "index.js", "src/index.ts", "src/index.js", "src/mcp-server.ts",
   "src/bin.ts", "src/server.ts"]

/-- The executable path the v2 manifest fallback extracts from the `bin`
field (.env.example 579-597): a truthy string, or the first entry of a map
when its key and value are truthy; JavaScript falsiness makes an empty
string or an empty first key yield nothing. -/
def binFirst : BinDecl → Option String
  | .noneB => none
  | .single p => if p = "" then none else some p
  | .mapB [] => none
  | .mapB (e :: _) => if e.1 = "" then none else if e.2 = "" then none else some e.2

/-- The condition guarding the build-script run (.env.example 503-515):
a truthy `scripts.build` together with a `dist/` substring in a bin map
value, a bin string, or the main field. -/
def distTrigger (pkg : PackageJson) : Bool :=
  (match pkg.scriptsBuild with
   | none => false
   | some sb => if sb = "" then false else true) &&
  ((match pkg.bin with
    | .mapB es => es.any (fun e => strContains e.2 "dist/")
    | _ => false) ||
   (match pkg.bin with
    | .single sb => if sb = "" then false else strContains sb "dist/"
    | _ => false) ||
   (match pkg.main with
    | some m => if m = "" then false else strContains m "dist/"
    | none => false))

/-- The conditional build-script run before the entrypoint probe
(.env.example 495-558): read the manifest; when `distTrigger` holds run
`npm run build`, falling back to `bun run build`; every failure -
including a missing or unparseable manifest - is swallowed. -/
def buildScriptStep (env : Env) (installDir : String) : Act Unit :=
  Act.tryCatch
    (Act.bind (fsReadFile (pathJoin installDir "package.json")) (fun pj =>
      match env.parsePkg pj with
      | none => Act.throwA "Unexpected token in JSON"
      | some pkg =>
        if distTrigger pkg then
          Act.tryCatch
            (Act.bind (execCmd env installDir "npm run build") (fun _ => Act.ret ()))
            (fun _ =>
              Act.tryCatch
                (Act.bind (execCmd env installDir "bun run build") (fun _ => Act.ret ()))
                (fun _ => Act.ret ()))
        else Act.ret ()))
    (fun _ => Act.ret ())

/-- The v2 manifest fallback (.env.example 571-648): read the manifest,
try the normalized `bin` path first, then the normalized truthy `main`
path, each existence-checked with its failure swallowed; any error while
reading or parsing the manifest is swallowed, leaving no entrypoint. -/
def manifestFallbackV2 (env : Env) (installDir : String) : Act (Option String) :=
  Act.tryCatch
    (Act.bind (fsReadFile (pathJoin installDir "package.json")) (fun pj =>
      match env.parsePkg pj with
      | none => Act.throwA "Unexpected token in JSON"
      | some pkg =>
        Act.bind
          (match binFirst pkg.bin with
           | none => Act.ret none
           | some b =>
             Act.tryCatch
               (Act.bind (fsAccess (pathJoin installDir (normMain b)))
                 (fun _ => Act.ret (some (normMain b))))
               (fun _ => Act.ret none))
          (fun r1 =>
            match r1 with
            | some e => Act.ret (some e)
            | none =>
              match pkg.main with
              | none => Act.ret none
              | some m =>
                if m = "" then Act.ret none
                else
                  Act.tryCatch
                    (Act.bind (fsAccess (pathJoin installDir (normMain m)))
                      (fun _ => Act.ret (some (normMain m))))
                    (fun _ => Act.ret none))))
    (fun _ => Act.ret none)

/-- The v2 entrypoint stage (.env.example 483-653): the conditional build
script, then the seven-candidate probe, then the manifest fallback. -/
def entryStageV2 (env : Env) (installDir : String) : Act (Option String) :=
  Act.bind (buildScriptStep env installDir) (fun _ =>
  Act.bind (findConventional installDir possibleEntrypointsV2) (fun e1 =>
    match e1 with
    | some e => Act.ret (some e)
    | none => manifestFallbackV2 env installDir))

/-- One entry of the platform-matrix pre-fetch: the command is issued and
its failure swallowed (.env.example 331-353). -/
def platformInstall1 (env : Env) (installDir cmd : String) : Act Unit :=
  Act.tryCatch (Act.bind (execCmd env installDir cmd) (fun _ => Act.ret ()))
    (fun _ => Act.ret ())

/-- The fixed platform matrix of the v2 Dependency stage
(.env.example 322-353). -/
def platformInstalls (env : Env) (installDir : String) : Act Unit :=
  Act.bind (platformInstall1 env installDir
    "npm install --no-save --force --ignore-scripts --os=darwin --cpu=arm64") (fun _ =>
  Act.bind (platformInstall1 env installDir
    "npm install --no-save --force --ignore-scripts --os=darwin --cpu=x64") (fun _ =>
  Act.bind (platformInstall1 env installDir
    "npm install --no-save --force --ignore-scripts --os=linux --cpu=x64") (fun _ =>
  Act.bind (platformInstall1 env installDir
    "npm install --no-save --force --ignore-scripts --os=win32 --cpu=x64") (fun _ =>
  platformInstall1 env installDir
    "npm install --no-save --force --ignore-scripts --os=win32 --cpu=ia32"))))

/-- The v2 Dependency stage (.env.example 318-377): platform matrix, then
`bun install`, falling back to `npm install`, both failures swallowed. -/
def installStageV2 (env : Env) (installDir : String) : Act Unit :=
  Act.tryCatch
    (Act.bind (platformInstalls env installDir) (fun _ =>
     Act.bind (execCmd env installDir "bun install") (fun _ => Act.ret ())))
    (fun _ =>
      Act.tryCatch
        (Act.bind (execCmd env installDir "npm install") (fun _ => Act.ret ()))
        (fun _ => Act.ret ()))

/-- The v2 Typecheck stage (.env.example 379-481): compile with
`--noEmitOnError false`; on failure retry once with `npx tsc` (swallowed),
then apply the same tsconfig repair as v1 when the original message
mentions `Symbol.dispose`. -/
def typecheckStageV2 (env : Env) (installDir : String) : Act Unit :=
  Act.tryCatch
    (Act.bind (execCmd env installDir "bun run tsc --noEmitOnError false")
      (fun _ => Act.ret ()))
    (fun e =>
      Act.bind
        (Act.tryCatch
          (Act.bind (execCmd env installDir "npx tsc --noEmitOnError false")
            (fun _ => Act.ret ()))
          (fun _ => Act.ret ()))
        (fun _ =>
          if strContains e "Symbol.dispose" then tsconfigFix env installDir
          else Act.ret ()))

/-- The v2 Bundle stage (.env.example 655-746): same strategy chain as v1
with the output fixed to `bundle.mjs`, esm linkage, and
`--packages external` on the bun command. -/
def bundleStageV2 (env : Env) (installDir entrypoint : String) : Act Unit :=
  let target := pathJoin installDir entrypoint
  let bunCmd := "bun build " ++ target ++
    " --outfile bundle.mjs --target node --format esm --packages external"
  let esCmd := "npx esbuild " ++ target ++
    " --bundle --platform=node --outfile=bundle.mjs --format=esm"
  let writeBundle := fsWriteFile (pathJoin installDir "bundle.mjs") env.bundleOut
  Act.tryCatch
    (Act.tryCatch
      (Act.bind (execCmd env "" "which bun") (fun _ =>
       Act.bind (execCmd env installDir bunCmd) (fun _ => writeBundle)))
      (fun _ =>
        Act.tryCatch
          (Act.bind (execCmd env "" "npx --no-install esbuild --version") (fun _ =>
           Act.bind (execCmd env installDir esCmd) (fun _ => writeBundle)))
          (fun _ =>
            Act.tryCatch
              (Act.bind (execCmd env installDir "npm install --no-save esbuild") (fun _ =>
               Act.bind (execCmd env installDir esCmd) (fun _ => writeBundle)))
              (fun finalErr => Act.throwA ("Failed to bundle: " ++ finalErr)))))
    (fun e => Act.throwA e)

/-- Environment for the C4 counterexample and witness: the manifest text
`PKG` parses to a package.json declaring both an executable and a main
module; no build script is declared. -/
def envC4 : Env :=
  { run := fun _ _ _ => .ok ""
    repoFiles := []
    parseTsconfig := fun _ => none
    printTsconfig := fun _ => ""
    parsePkg := fun pj => if pj = "PKG" then
        some { main := some "./main.js", bin := .single "./cli.js" } else none
    tmpRand := "00"
    bundleOut := "" }

/-- A repository state with a conventional entrypoint on disk. -/
def stC4conv : St :=
  { fs := { files := [("/r/index.js", ""), ("/r/package.json", "PKG")], dirs := [] },
    tick := 0, trace := [] }

/-- A repository state with no conventional entrypoint, but both the
declared `bin` file `cli.js` and the declared `main` file `main.js` on
disk. -/
def stC4manifest : St :=
  { fs := { files := [("/r/cli.js", ""), ("/r/main.js", ""), ("/r/package.json", "PKG")],
            dirs := [] },
    tick := 0, trace := [] }

/-- Like stC4manifest but with `src/server.ts` (a v2-only conventional
candidate) also on disk. -/
def stC4server : St :=
  { fs := { files := stC4manifest.fs.files ++ [("/r/src/server.ts", "")], dirs := [] },
    tick := 0, trace := [] }

/-- Environment for the C10 witness. -/
def envC10w : Env :=
  { run := fun _ _ _ => .fail "no tools installed"
    repoFiles := [("index.ts", "export {}")]
    parseTsconfig := fun _ => none
    printTsconfig := fun _ => ""
    parsePkg := fun _ => none
    tmpRand := "aa"
    bundleOut := "bundle-text" }

/-! ## The HTTP layer (src/index.ts)

The two route handlers are embedded as pure functions from the query
parameters and an environment to a response record.  The environment fixes
the configuration variables, the bytes produced by `crypto.randomBytes`,
and the settled outcome of the race between the pipeline promise and the
five-minute timeout; a timeout is a rejection whose message contains
`timed out`.  The commit-scraping cascade of the v2 handler
(src/index.ts 470-518) is embedded literally, including the leftmost-match
semantics of the four JavaScript regular expressions involved. -/
/-- Lower-case hex digit of `n % 16` (as `Buffer.toString("hex")`). -/
def hexChar (n : Nat) : Char :=
  if n % 16 < 10 then Char.ofNat (48 + n % 16) else Char.ofNat (87 + n % 16)

/-- Is `c` one of `0-9a-f`? -/
def isHexDigit (c : Char) : Bool :=
  (('0' ≤ c) && (c ≤ '9')) || (('a' ≤ c) && (c ≤ 'f'))

/-- `crypto.randomBytes(16).toString("hex")`: 16 oracle bytes rendered as 32
lower-case hex characters, high nibble first. -/
def genHex (r : Fin 16 → Nat) : String :=
  String.mk (List.ofFn (fun i : Fin 32 =>
    let b := r ⟨i.val / 2, by omega⟩
    if i.val % 2 = 0 then hexChar (b / 16) else hexChar b))

/-- A thrown JavaScript error: message and optional stack. -/
structure JsError where
  message : String
  stack : Option String := none
deriving Repr, DecidableEq

/-- Longest run of hex digits at the front (the greedy `[a-f0-9]+`). -/
def takeHexRun : List Char → List Char × List Char
  | [] => ([], [])
  | c :: cs =>
    if isHexB c then
      let p := takeHexRun cs
      (c :: p.1, p.2)
    else ([], c :: cs)
where
  /-- The character class `[a-f0-9]`. -/
  isHexB (c : Char) : Bool := isHexDigit c

/-- Try the regex `\/\/ COMMIT_HASH:([a-f0-9]+|unknown)` at one position. -/
def p1At (s : List Char) : Option (List Char) :=
  match stripLead ("// COMMIT_HASH:".data) s with
  | none => none
  | some r =>
    if (takeHexRun r).1 = [] then
      if begins ("unknown".data) r then some ("unknown".data) else none
    else some (takeHexRun r).1

/-- Try the regex `COMMIT_HASH_FOR_RESPONSE:([a-f0-9]+)` at one position. -/
def p2At (s : List Char) : Option (List Char) :=
  match stripLead ("COMMIT_HASH_FOR_RESPONSE:".data) s with
  | none => none
  | some r =>
    if (takeHexRun r).1 = [] then none else some (takeHexRun r).1

/-- Try the regex `gs:\/\/([^\/]+)\/([^\/]+)\/([^\/]+)\/[^\/]+\.tar\.gz` at
one position, returning the second capture group (which the source then
uses as the commit hash).  The final `[^\/]+\.tar\.gz` matches when the
non-slash run after the third slash contains `.tar.gz` past its first
character. -/
def p3At (s : List Char) : Option (List Char) :=
  match stripLead ("gs://".data) s with
  | none => none
  | some r =>
    if (takeSeg r).1 = [] then none
    else
      match (takeSeg r).2 with
      | [] => none
      | _ :: r1 =>
        if (takeSeg r1).1 = [] then none
        else
          match (takeSeg r1).2 with
          | [] => none
          | _ :: r2 =>
            if (takeSeg r2).1 = [] then none
            else
              match (takeSeg r2).2 with
              | [] => none
              | _ :: r3 =>
                match (takeSeg r3).1 with
                | [] => none
                | _ :: t =>
                  if containsSub (".tar.gz".data) t then some (takeSeg r1).1 else none

/-- Try the regex `Using actual commit hash: ([a-f0-9]+)` at one position. -/
def p4At (s : List Char) : Option (List Char) :=
  match stripLead ("Using actual commit hash: ".data) s with
  | none => none
  | some r =>
    if (takeHexRun r).1 = [] then none else some (takeHexRun r).1

/-- Leftmost-match search: try the pattern at every position left to right
(JavaScript `String.prototype.match` with an unanchored regex). -/
def scanFor (tryAt : List Char → Option (List Char)) : List Char → Option (List Char)
  | [] => tryAt []
  | c :: cs =>
    match tryAt (c :: cs) with
    | some x => some x
    | none => scanFor tryAt cs

/-- The last three rungs of the scraping cascade (src/index.ts 486-518):
the response marker, the upload-path regex, the log-line regex, and finally
the requested pin itself. -/
def extractFallback (rs pin : String) : String :=
  match scanFor p2At rs.data with
  | some h => String.mk h
  | none =>
    match scanFor p3At rs.data with
    | some g2 => String.mk g2
    | none =>
      match scanFor p4At rs.data with
      | some h => String.mk h
      | none => pin

/-- The whole scraping cascade (src/index.ts 470-518): the bundled-content
marker wins unless its capture is `unknown`; otherwise fall through. -/
def extractCommit (rs pin : String) : String :=
  match scanFor p1At rs.data with
  | some cap => if cap = "unknown".data then extractFallback rs pin else String.mk cap
  | none => extractFallback rs pin

/-! ## The v2 pipeline (src/v2/bundler.ts, full text in src/.env.example 192-935) -/
/-- The JavaScript whitespace characters `String.prototype.trim` strips. -/
def isJsWs (c : Char) : Bool :=
  c = ' ' || c = '\t' || c = '\n' || c = '\r' || c = '\x0b' || c = '\x0c'

/-- `s.trim()`. -/
def jsTrim (s : String) : String :=
  String.mk (((s.data.dropWhile isJsWs).reverse.dropWhile isJsWs).reverse)

/-- `crypto.randomBytes(20).toString("hex")`: 20 oracle bytes rendered as 40
lower-case hex characters, high nibble first. -/
def genHex40 (r : Fin 20 → Nat) : String :=
  String.mk (List.ofFn (fun i : Fin 40 =>
    let b := r ⟨i.val / 2, by omega⟩
    if i.val % 2 = 0 then hexChar (b / 16) else hexChar b))

/-- The marker line the v2 pipeline puts in front of the bundle in upload
mode (.env.example 766-772): the resolved commit, or `unknown` when that
string is falsy. -/
def markerOf (a : String) : String :=
  "// COMMIT_HASH:" ++ (if a = "" then "unknown" else a) ++ "\n"

/-- `path.basename`. -/
def baseName (s : String) : String :=
  String.mk ((s.data.reverse.takeWhile (fun c => if c = '/' then false else true)).reverse)

/-- `fs.copyFile(src, dst)`: rejects when the source is missing. -/
def copyFileA (src dst : String) : Act Unit := fun st =>
  let st2 : St := { st with trace := st.trace ++ [Ev.copyFile src dst] }
  match readF st.fs src with
  | some c => (.ok (), { st2 with fs := writeF st2.fs dst c })
  | none => (.error ("ENOENT: no such file " ++ src), st2)

/-- `fs.stat(p)`: rejects when the path is missing. -/
def fsStat (p : String) : Act Unit := fun st =>
  let st2 : St := { st with trace := st.trace ++ [Ev.stat p] }
  if fileExistsB st.fs p then (.ok (), st2)
  else (.error ("ENOENT: no such file " ++ p), st2)

/-- `fs.unlink(p)`: removes the file, rejecting when it is missing. -/
def fsUnlink (p : String) : Act Unit := fun st =>
  let st2 : St := { st with trace := st.trace ++ [Ev.unlink p] }
  if fileExistsB st.fs p then
    (.ok (), { st2 with fs := { st2.fs with
      files := st2.fs.files.filter (fun kv => if kv.1 = p then false else true) } })
  else (.error ("ENOENT: no such file " ++ p), st2)

/-- Does a directory exist (listed, or holding at least one file)? -/
def dirExistsB (fs : FS) (p : String) : Bool :=
  fs.dirs.any (fun d => d = p) ||
  fs.files.any (fun kv => begins (p ++ "/").data kv.1.data)

/-- `fs.cp(src, dst, { recursive: true })`: copies the subtree, rejecting
when the source directory is missing. -/
def cpTree (src dst : String) : Act Unit := fun st =>
  let st2 : St := { st with trace := st.trace ++ [Ev.cp src dst] }
  if dirExistsB st.fs src then
    (.ok (), { st2 with fs := { st2.fs with
        files := (st.fs.files.filterMap (fun kv =>
          match stripLead (src ++ "/").data kv.1.data with
          | some r => some (dst ++ "/" ++ String.mk r, kv.2)
          | none => none)) ++ st2.fs.files
        dirs := dst :: st2.fs.dirs } })
  else (.error ("ENOENT: no such file or directory " ++ src), st2)

/-- `fs.rm(dir, { recursive: true, force: true })` as an action: never
rejects. -/
def rmDirA (dir : String) : Act Unit := fun st =>
  (.ok (), { st with fs := FS.rmrf st.fs dir, trace := st.trace ++ [Ev.rm dir] })

/-- `uploadToGCPBucket` (src/utils/index.ts 149-210): computes the object
key `<mcpId>/<commitId>/<basename>`, uploads, and resolves to the `gs://`
URL; client-initialization and upload failures reject as the oracle
dictates. -/
def uploadToGCPBucket (env : Env) (sourcePath mcpId commitId : String) : Act String := fun st =>
  let destPath := mcpId ++ "/" ++ commitId ++ "/" ++ baseName sourcePath
  let st2 : St := { st with trace := st.trace ++ [Ev.upload sourcePath destPath] }
  if env.upOk then (.ok ("gs://bundler-microservice-servers/" ++ destPath), st2)
  else (.error "Could not initialize GCP Storage client", st2)

/-- `createTarGzArchive` (src/utils/index.ts 81-146): stage the bundle file
into a scratch directory, best-effort copy of node_modules (its absence is
swallowed), run tar, materialize the archive bytes at `outputPath`, remove
the scratch directory, and return `outputPath`; any failure is rethrown
with the descriptive message. -/
def createTarGzArchive (env : Env) (sourceDir bundleFile outputPath : String) : Act String :=
  let archiveDir := pathJoin "/tmp" ("archive-" ++ env.tmpRand2)
  Act.tryCatch
    (Act.bind (fsMkdir archiveDir) (fun _ =>
     Act.bind (copyFileA (pathJoin sourceDir bundleFile) (pathJoin archiveDir bundleFile))
       (fun _ =>
     Act.bind
       (Act.tryCatch
         (Act.bind (fsAccess (pathJoin sourceDir "node_modules")) (fun _ =>
          Act.bind (fsMkdir (pathJoin archiveDir "node_modules")) (fun _ =>
          Act.bind (execCmd env ""
              ("tar -cf - -C " ++ sourceDir ++ " node_modules | tar -xf - -C " ++ archiveDir))
            (fun _ => Act.ret ()))))
         (fun _ => Act.ret ()))
       (fun _ =>
        Act.bind (execCmd env "" ("tar -czf " ++ outputPath ++ " -C " ++ archiveDir ++ " ."))
          (fun _ =>
           Act.bind (fsWriteFile outputPath env.archiveBytes) (fun _ =>
           Act.bind (rmDirA archiveDir) (fun _ => Act.ret outputPath)))))))
    (fun e => Act.throwA ("Failed to create tar.gz archive: " ++ e))

/-- The actual-commit resolution of the v2 pipeline (.env.example 296-316):
`git rev-parse HEAD` trimmed, falling back to 40 random hex characters when
the query rejects; never rejects itself. -/
def revResolve (env : Env) (tempDir : String) : Act String :=
  Act.tryCatch
    (Act.bind (execCmd env tempDir "git rev-parse HEAD") (fun out => Act.ret (jsTrim out)))
    (fun _ => Act.ret (genHex40 env.randBytes20))

/-- The head of the v2 archive block (.env.example 776-803): copy
node_modules unless source and destination coincide, build the archive at
`/tmp/bundle-<actualCommit>.tar.gz`, stat it, and return its path; any
rejection propagates to the enclosing archive catch. -/
def archivePre (env : Env) (tempDir installDir a : String) : Act String :=
  Act.bind
    (if pathJoin tempDir "node_modules" = pathJoin installDir "node_modules" then Act.ret ()
     else cpTree (pathJoin tempDir "node_modules") (pathJoin installDir "node_modules"))
    (fun _ =>
      let archivePath := pathJoin "/tmp" ("bundle-" ++ a ++ ".tar.gz")
      Act.bind (createTarGzArchive env installDir "bundle.mjs" archivePath) (fun _ =>
      Act.bind (fsStat archivePath) (fun _ => Act.ret archivePath)))

/-- The upload branch of the v2 archive block (.env.example 805-854): when
the commit string is falsy, one last `git rev-parse HEAD` (its failure
swallowed into 40 random hex characters), then the bucket upload with its
failure swallowed; returns the possibly re-resolved commit.  The source
wraps the re-resolution and the upload in one catch, but the re-resolution
cannot reject (its own catch swallows), so only the upload is guarded. -/
def uploadBranch (env : Env) (tempDir archivePath mcpId a : String) : Act String :=
  Act.bind
    (if a = "" then
      Act.tryCatch
        (Act.bind (execCmd env tempDir "git rev-parse HEAD") (fun out => Act.ret (jsTrim out)))
        (fun _ => Act.ret (genHex40 env.randBytes20))
     else Act.ret a)
    (fun a2 =>
      Act.bind
        (Act.tryCatch
          (Act.bind (uploadToGCPBucket env archivePath mcpId a2) (fun _ => Act.ret ()))
          (fun _ => Act.ret ()))
        (fun _ => Act.ret a2))

/-- The local branch of the v2 archive block (.env.example 856-885): ensure
`bundled/` under the process working directory (modelled as `/app`), copy
the archive there; every failure swallowed. -/
def localBranch (archivePath archiveName : String) : Act Unit :=
  Act.tryCatch
    (Act.bind (Act.tryCatch (fsMkdir "/app/bundled") (fun _ => Act.ret ())) (fun _ =>
      copyFileA archivePath (pathJoin "/app/bundled" archiveName)))
    (fun _ => Act.ret ())

/-- The whole v2 archive block (.env.example 774-901): stage the archive,
take the upload or the local branch, unlink the archive; every rejection is
swallowed by the enclosing catch, and the commit string re-resolved in the
upload branch survives it (the catch sits outside the assignment).  Returns
the commit string as it stands after the block. -/
def archiveStage (env : Env) (tempDir installDir a : String) (mcpIdOpt : Option String) :
    Act String := fun st =>
  match (archivePre env tempDir installDir a) st with
  | (.error _, st2) => (.ok a, st2)
  | (.ok archivePath, st2) =>
    match mcpIdOpt with
    | some mcpId =>
      match (uploadBranch env tempDir archivePath mcpId a) st2 with
      | (.ok a2, st3) =>
        match (fsUnlink archivePath) st3 with
        | (_, st4) => (.ok a2, st4)
      | (.error _, st3) => (.ok a, st3)
    | none =>
      match (localBranch archivePath ("bundle-" ++ a ++ ".tar.gz")) st2 with
      | (_, st3) =>
        match (fsUnlink archivePath) st3 with
        | (_, st4) => (.ok a, st4)

/-- Shape of the v2 pipeline result as consumed by the route handler
(.env.example 909-915). -/
inductive V2Ret where
  | inlineData (data actualCommit : String)
  | uploaded (resultStr : String)
deriving Repr, DecidableEq

/-- `subDir ? path.join(tempDir, subDir) : tempDir` (.env.example 321). -/
def installDirOf (tempDir : String) (subDir : Option String) : String :=
  match subDir with
  | some sd => pathJoin tempDir sd
  | none => tempDir

/-- The first half of the v2 try body (.env.example 226-377): scratch
directory, clone, checkout, commit resolution, dependency installation,
typecheck; returns the resolved commit string. -/
def v2Front (env : Env) (base : String) (subDir commit : Option String)
    (tempDir : String) : Act String :=
  Act.bind (fsMkdir tempDir) (fun _ =>
  Act.bind (cloneStage env tempDir base) (fun _ =>
  Act.bind (checkoutStep env tempDir commit) (fun _ =>
  Act.bind (revResolve env tempDir) (fun a =>
  let installDir := installDirOf tempDir subDir
  Act.bind (installStageV2 env installDir) (fun _ =>
  Act.bind (typecheckStageV2 env installDir) (fun _ => Act.ret a))))))

/-- The second half of the v2 try body (.env.example 483-915): entrypoint
resolution, bundling, reading the bundle, prepending the commit marker in
upload mode, the archive block, and the mode-dependent return value. -/
def v2Rest (env : Env) (tempDir installDir a : String) (mcpIdOpt : Option String) :
    Act V2Ret :=
  Act.bind (entryStageV2 env installDir) (fun eOpt =>
    match eOpt with
    | none => Act.throwA "No valid entrypoint file found"
    | some entrypoint =>
      Act.bind (bundleStageV2 env installDir entrypoint) (fun _ =>
      Act.bind (fsReadFile (pathJoin installDir "bundle.mjs")) (fun raw =>
      let buildContent := match mcpIdOpt with
        | some _ => markerOf a ++ raw
        | none => raw
      Act.bind (archiveStage env tempDir installDir a mcpIdOpt) (fun a2 =>
        match mcpIdOpt with
        | none => Act.ret (V2Ret.inlineData buildContent (if a2 = "" then "latest" else a2))
        | some _ => Act.ret (V2Ret.uploaded buildContent)))))

/-- The whole v2 try body (.env.example 226-915). -/
def v2Body (env : Env) (base : String) (subDir commit mcpIdOpt : Option String)
    (tempDir : String) : Act V2Ret :=
  let installDir := installDirOf tempDir subDir
  Act.bind (v2Front env base subDir commit tempDir) (fun a =>
    v2Rest env tempDir installDir a mcpIdOpt)

/-- Result of one whole v2 build: outcome, final filesystem, event trace. -/
structure V2Out where
  result : Except String V2Ret
  fs : FS
  trace : List Ev
deriving Repr, DecidableEq

/-- The v2 `buildMCPServer` on an already-parsed locator result: run the
body, map every escaping error to the generic fatal message (the outer
catch, .env.example 916-931), and remove the scratch directory
unconditionally (the `finally`, .env.example 932-934). -/
def buildV2From (env : Env) (base : String) (subDir commit mcpIdOpt : Option String) : V2Out :=
  let tempDir := "/tmp/mcp-" ++ env.tmpRand
  let wrapped := Act.tryCatch (v2Body env base subDir commit mcpIdOpt tempDir)
    (fun _ => Act.throwA "Failed to build the server code.")
  let out := wrapped { fs := { files := [], dirs := [] }, tick := 0, trace := [] }
  { result := out.1
    fs := FS.rmrf out.2.fs tempDir
    trace := out.2.trace ++ [Ev.rm tempDir] }

/-- Embedding of the v2 `buildMCPServer(githubUrl, commit?, mcpId?)`
(.env.example 209-935). -/
def buildMCPServerV2 (env : Env) (githubUrl : String) (commit mcpIdOpt : Option String) :
    V2Out :=
  let pr := parseMonorepoUrl githubUrl
  buildV2From env pr.baseRepoUrl pr.subDir commit mcpIdOpt

/-- The oracle is a faithful git installation: whenever `git rev-parse
HEAD` resolves, its trimmed stdout is a non-empty string of hex digits. -/
def gitFaithful (env : Env) : Prop :=
  ∀ (t : Nat) (cwd out : String), env.run t cwd "git rev-parse HEAD" = .ok out →
    jsTrim out ≠ "" ∧ ∀ c ∈ (jsTrim out).data, isHexDigit c = true

/-- The commit string `a` is one the v2 commit resolution can produce:
trimmed `git rev-parse HEAD` output, or the 40-hex-character fallback. -/
def revOk (env : Env) (a : String) : Prop :=
  (∃ t cwd out, env.run t cwd "git rev-parse HEAD" = .ok out ∧ a = jsTrim out) ∨
  a = genHex40 env.randBytes20

/-- Environment of the HTTP layer for one request: configuration, random
bytes, the environment oracle handed to the raced v2 pipeline call, and the
settled outcomes of the races. -/
structure HttpEnv where
  /-- Value of `DISABLE_GCP_INTEGRATION` (empty when unset). -/
  disableGcp : String
  /-- Value of `GCP_BUCKET_NAME`. -/
  gcpBucketName : Option String
  /-- The 16 bytes drawn by `crypto.randomBytes(16)`. -/
  randBytes : Fin 16 → Nat
  /-- Environment oracle of the v2 pipeline call. -/
  env2 : Env
  /-- Whether the five-minute timeout promise wins the race. -/
  timeoutFired : Bool
  /-- The stack recorded on the error object the race rejects with. -/
  v2stack : Option String
  /-- Rejection of the raced v1 pipeline call, when it rejects. -/
  v1fail : Option JsError
  /-- Bundle text resolved by the v1 pipeline call. -/
  v1result : String

/-- JavaScript `q || d` on an optional query parameter (empty is falsy). -/
def jsOrStr (q : Option String) (d : String) : String :=
  match q with
  | none => d
  | some s => if s = "" then d else s

/-- The mcpId the v2 handler uses (src/index.ts 407). -/
def mcpIdUsed (env : HttpEnv) (mq : Option String) : String :=
  jsOrStr mq (genHex env.randBytes)

/-- The third argument the v2 handler passes to the pipeline
(src/index.ts 446): `skipGcpUpload ? undefined : mcpId`. -/
def v2arg (env : HttpEnv) (mq : Option String) : Option String :=
  if env.disableGcp = "true" then none else some (mcpIdUsed env mq)

/-- The settled outcome of `Promise.race([buildMCPServerV2(url, commit,
mcpIdOpt), timeoutPromise])` (src/index.ts 419-448): the timeout rejection
when the timeout promise wins, and otherwise the pipeline outcome, with an
escaping message wrapped in an error object carrying the oracle stack. -/
def v2race (env : HttpEnv) (url commit : String) (mcpIdOpt : Option String) :
    Except JsError V2Ret :=
  if env.timeoutFired then
    .error { message := "Bundler operation timed out after 300000ms", stack := env.v2stack }
  else
    match (buildMCPServerV2 env.env2 url (some commit) mcpIdOpt).result with
    | .ok r => .ok r
    | .error m => .error { message := m, stack := env.v2stack }

/-- The `gcp_upload` object of a successful remote-publish response. -/
structure GcpUpload where
  bucket : Option String
  path : String
  files : List String
deriving Repr, DecidableEq

/-- A JSON response of either bundler endpoint: HTTP status plus the
optional body fields either handler can emit. -/
structure HResp where
  status : Nat
  errMsg : Option String := none
  details : Option String := none
  success : Option Bool := none
  dataOut : Option String := none
  gcpUpload : Option GcpUpload := none
deriving Repr, DecidableEq

/-- The timeout response message shared by both endpoints. -/
def timeoutRespMsg : String :=
  "Bundler operation timed out. The repository may contain large WASM files or complex dependencies that exceed the processing limits."

/-- The message of the guarded v2 400 branch (src/index.ts 428-433). -/
def mcpIdReqMsg : String := "mcpId is required for v2/bundler endpoint with GCP upload"

/-- Embedding of the `/v2/bundler` route handler (src/index.ts 404-561). -/
def v2Handler (env : HttpEnv) (urlQ commitQ mcpIdQ : Option String) : HResp :=
  let commit := jsOrStr commitQ "latest"
  let mcpId := mcpIdUsed env mcpIdQ
  let skip := env.disableGcp = "true"
  match urlQ with
  | none => { status := 400, errMsg := some "Github url is required" }
  | some u =>
    if u = "" then { status := 400, errMsg := some "Github url is required" }
    else if mcpId = "" ∧ ¬skip then { status := 400, errMsg := some mcpIdReqMsg }
    else
      match v2race env u commit (if skip then none else some mcpId) with
      | .error e =>
        if strContains e.message "timed out" then
          { status := 504, errMsg := some timeoutRespMsg }
        else { status := 500, errMsg := some e.message, details := e.stack }
      | .ok (.inlineData d _) => { status := 200, success := some true, dataOut := some d }
      | .ok (.uploaded rs) =>
        let actualCommit := extractCommit rs commit
        { status := 200, success := some true
          gcpUpload := some { bucket := env.gcpBucketName
                              path := mcpId ++ "/" ++ actualCommit ++ "/"
                              files := ["bundle-" ++ actualCommit ++ ".tar.gz"] } }

/-- Embedding of the legacy `/bundler` route handler (src/index.ts 333-401). -/
def v1Handler (env : HttpEnv) (urlQ _commitQ formatQ : Option String) : HResp :=
  let _format := jsOrStr formatQ "mjs"
  match urlQ with
  | none => { status := 400, errMsg := some "Github url is required" }
  | some u =>
    if u = "" then { status := 400, errMsg := some "Github url is required" }
    else
      match env.v1fail with
      | some e =>
        if strContains e.message "timed out" then
          { status := 504, errMsg := some timeoutRespMsg }
        else { status := 500, errMsg := some "Failed to build MCP server" }
      | none => { status := 200, dataOut := some env.v1result }

/-- Environment oracle of a fully successful v2 build: every external
command succeeds, `git rev-parse HEAD` prints a hex hash, the repository
carries a conventional entrypoint, and the bundler emits `CODE`. -/
def envGood : Env :=
  { run := fun _ _ cmd => if cmd = "git rev-parse HEAD" then .ok "ab12cd\n" else .ok ""
    repoFiles := [("index.ts", "export {}")]
    parseTsconfig := fun _ => none
    printTsconfig := fun _ => ""
    parsePkg := fun _ => none
    tmpRand := "aa"
    bundleOut := "CODE" }

/-- Environment oracle whose every external command fails. -/
def envDown : Env :=
  { run := fun _ _ _ => .fail "spawn git ENOENT"
    repoFiles := []
    parseTsconfig := fun _ => none
    printTsconfig := fun _ => ""
    parsePkg := fun _ => none
    tmpRand := "00"
    bundleOut := "" }

/-- Environment for the C3 witness: remote publishing enabled, the v2
pipeline succeeds end to end. -/
def envC3w : HttpEnv :=
  { disableGcp := ""
    gcpBucketName := some "bundler-microservice-servers"
    randBytes := fun _ => 0
    env2 := envGood
    timeoutFired := false
    v2stack := none
    v1fail := none
    v1result := "" }

/-- Environment for the C7 witness: publishing disabled, the v2 pipeline
succeeds end to end. -/
def envC7w : HttpEnv :=
  { disableGcp := "true"
    gcpBucketName := none
    randBytes := fun _ => 0
    env2 := envGood
    timeoutFired := false
    v2stack := none
    v1fail := none
    v1result := "" }

/-- Environment for the C8 counterexample: the v2 pipeline rejects with a
non-timeout error whose error object carries a stack trace. -/
def envC8 : HttpEnv :=
  { disableGcp := ""
    gcpBucketName := none
    randBytes := fun _ => 0
    env2 := envDown
    timeoutFired := false
    v2stack := some "Error: spawn ENOENT\n    at ChildProcess"
    v1fail := none
    v1result := "" }

/-- Environment for the C8 witness: the v1 build rejects with a generic
error, and the v2 race is lost to the timeout. -/
def envC8w : HttpEnv :=
  { disableGcp := ""
    gcpBucketName := none
    randBytes := fun _ => 0
    env2 := envDown
    timeoutFired := true
    v2stack := some "Error"
    v1fail := some { message := "Failed to build the server code."
                     stack := some "Error: Failed to build the server code.\n    at buildMCPServer" }
    v1result := "" }

/-- Environment for the C9 witness. -/
def envC9w : HttpEnv :=
  { disableGcp := ""
    gcpBucketName := none
    randBytes := fun _ => 171
    env2 := envDown
    timeoutFired := false
    v2stack := none
    v1fail := none
    v1result := "" }

theorem stripLead_append (p r : List Char) : stripLead p (p ++ r) = some r := by
  induction p with
  | nil => rfl
  | cons a as ih => simp [stripLead, ih]

theorem takeSeg_append (xs rest : List Char) (h : '/' ∉ xs) :
    takeSeg (xs ++ '/' :: rest) = (xs, '/' :: rest) := by
  induction xs with
  | nil => simp [takeSeg]
  | cons a as ih =>
    simp only [List.mem_cons, not_or] at h
    have h1 : ¬ a = '/' := fun hb => h.1 hb.symm
    simp [takeSeg, h1, ih h.2]

theorem takeSeg_no_slash (xs : List Char) (h : '/' ∉ xs) :
    takeSeg xs = (xs, []) := by
  induction xs with
  | nil => rfl
  | cons a as ih =>
    simp only [List.mem_cons, not_or] at h
    have h1 : ¬ a = '/' := fun hb => h.1 hb.symm
    simp [takeSeg, h1, ih h.2]

example : parseMonorepoUrl "https://github.com/o/r/tree/main/pkg/a" =
    { baseRepoUrl := "https://github.com/o/r", branch := some "main", subDir := some "pkg/a" } := by
  decide

example : parseMonorepoUrl "https://github.com/o/r" =
    { baseRepoUrl := "https://github.com/o/r" } := by decide

example : parseMonorepoUrl "https://gitlab.com/o/r" =
    { baseRepoUrl := "https://gitlab.com/o/r" } := by decide

example : parseMonorepoUrl "https://github.com/o/r/tree/main/" =
    { baseRepoUrl := "https://github.com/o/r", branch := some "main" } := by decide

theorem stripSchemeHost_host (secure : Bool) (r : List Char) :
    stripSchemeHost (hostChars secure ++ r) = some (hostChars secure, r) := by
  cases secure <;> rfl

theorem matchGithub_plain (secure : Bool) (owner repo : List Char)
    (ho1 : owner ≠ []) (ho2 : '/' ∉ owner) (hr1 : repo ≠ []) (hr2 : '/' ∉ repo) :
    matchGithub (plainUrlChars secure owner repo) =
      some (plainUrlChars secure owner repo, none, none) := by
  simp only [plainUrlChars, List.append_assoc, matchGithub, stripSchemeHost_host,
    takeSeg_append owner repo ho2, if_neg ho1, takeSeg_no_slash repo hr2, if_neg hr1,
    tailPart]

theorem matchGithub_ann (secure : Bool) (owner repo br : List Char) (sub : Option (List Char))
    (ho1 : owner ≠ []) (ho2 : '/' ∉ owner) (hr1 : repo ≠ []) (hr2 : '/' ∉ repo)
    (hb1 : br ≠ []) (hb2 : '/' ∉ br)
    (hs : ∀ s, sub = some s → s.all (fun c => !(lineTerm c)) = true) :
    matchGithub (annUrlChars secure owner repo br sub) =
      some (plainUrlChars secure owner repo, some br, sub) := by
  have etail : ∀ X : List Char, "/tree/".data ++ X = '/' :: ("tree/".data ++ X) :=
    fun X => rfl
  cases sub with
  | none =>
    have e0 : annUrlChars secure owner repo br none =
        hostChars secure ++ (owner ++ '/' :: (repo ++ '/' :: ("tree/".data ++ br))) := by
      simp [annUrlChars, plainUrlChars]
    rw [e0]
    simp only [matchGithub, stripSchemeHost_host, takeSeg_append owner _ ho2, if_neg ho1,
      takeSeg_append repo _ hr2, if_neg hr1, tailPart]
    have e1 : '/' :: ("tree/".data ++ br) = "/tree/".data ++ br := rfl
    rw [e1]
    simp only [stripLead_append, takeSeg_no_slash br hb2, if_neg hb1]
    simp [plainUrlChars, List.append_assoc]
  | some s =>
    have hsall := hs s rfl
    have e0 : annUrlChars secure owner repo br (some s) =
        hostChars secure ++ (owner ++ '/' :: (repo ++ '/' :: ("tree/".data ++ (br ++ '/' :: s)))) := by
      simp [annUrlChars, plainUrlChars]
    rw [e0]
    simp only [matchGithub, stripSchemeHost_host, takeSeg_append owner _ ho2, if_neg ho1,
      takeSeg_append repo _ hr2, if_neg hr1, tailPart]
    have e1 : '/' :: ("tree/".data ++ (br ++ '/' :: s)) = "/tree/".data ++ (br ++ '/' :: s) := rfl
    rw [e1]
    simp only [stripLead_append, takeSeg_append br _ hb2, if_neg hb1, hsall]
    simp [plainUrlChars, List.append_assoc]

theorem parse_ann_some (secure : Bool) (owner repo br sub : List Char)
    (ho1 : owner ≠ []) (ho2 : '/' ∉ owner) (hr1 : repo ≠ []) (hr2 : '/' ∉ repo)
    (hb1 : br ≠ []) (hb2 : '/' ∉ br)
    (hs : sub.all (fun c => !(lineTerm c)) = true) :
    parseMonorepoUrl (String.mk (annUrlChars secure owner repo br (some sub))) =
      { baseRepoUrl := String.mk (plainUrlChars secure owner repo)
        branch := some (String.mk br)
        subDir := (jsOrUndef (some sub)).map String.mk } := by
  have hd : (String.mk (annUrlChars secure owner repo br (some sub))).data =
      annUrlChars secure owner repo br (some sub) := rfl
  have hm := matchGithub_ann secure owner repo br (some sub) ho1 ho2 hr1 hr2 hb1 hb2
    (by intro s hsome; cases hsome; exact hs)
  simp only [parseMonorepoUrl, hd, hm, jsOrUndef, if_neg hb1]
  rfl

theorem parse_ann_none (secure : Bool) (owner repo br : List Char)
    (ho1 : owner ≠ []) (ho2 : '/' ∉ owner) (hr1 : repo ≠ []) (hr2 : '/' ∉ repo)
    (hb1 : br ≠ []) (hb2 : '/' ∉ br) :
    parseMonorepoUrl (String.mk (annUrlChars secure owner repo br none)) =
      { baseRepoUrl := String.mk (plainUrlChars secure owner repo)
        branch := some (String.mk br)
        subDir := none } := by
  have hd : (String.mk (annUrlChars secure owner repo br none)).data =
      annUrlChars secure owner repo br none := rfl
  have hm := matchGithub_ann secure owner repo br none ho1 ho2 hr1 hr2 hb1 hb2
    (by intro s hsome; cases hsome)
  simp only [parseMonorepoUrl, hd, hm, jsOrUndef, if_neg hb1]
  rfl

theorem parse_plain_url (secure : Bool) (owner repo : List Char)
    (ho1 : owner ≠ []) (ho2 : '/' ∉ owner) (hr1 : repo ≠ []) (hr2 : '/' ∉ repo) :
    parseMonorepoUrl (String.mk (plainUrlChars secure owner repo)) =
      { baseRepoUrl := String.mk (plainUrlChars secure owner repo) } := by
  have hd : (String.mk (plainUrlChars secure owner repo)).data =
      plainUrlChars secure owner repo := rfl
  simp only [parseMonorepoUrl, hd, matchGithub_plain secure owner repo ho1 ho2 hr1 hr2]
  rfl

theorem parse_unmatched (s : String) (h : matchGithub s.data = none) :
    parseMonorepoUrl s = { baseRepoUrl := s } := by
  simp only [parseMonorepoUrl, h]

/-- C1 (counterexample).  The claim says every URL that is not of the form
`https://github.com/<owner>/<repo>/tree/<branch>/<subpath>` is returned
unchanged as the clone URL with no branch and no subdirectory.  Two inputs
refute this: an `http://` URL (the source regex accepts `https?`), and an
annotated URL with a branch but no subpath; both are split by the Locator
rather than returned unchanged. -/
theorem c1_locator_counterexample :
    (parseMonorepoUrl "http://github.com/o/r/tree/b/s" ≠
      { baseRepoUrl := "http://github.com/o/r/tree/b/s" }) ∧
    parseMonorepoUrl "http://github.com/o/r/tree/b/s" =
      { baseRepoUrl := "http://github.com/o/r", branch := some "b", subDir := some "s" } ∧
    (parseMonorepoUrl "https://github.com/o/r/tree/main" ≠
      { baseRepoUrl := "https://github.com/o/r/tree/main" }) ∧
    parseMonorepoUrl "https://github.com/o/r/tree/main" =
      { baseRepoUrl := "https://github.com/o/r", branch := some "main" } := by
  refine ⟨by decide, by decide, by decide, by decide⟩

/-- C1 (amended).  The Locator never fails, and behaves as follows.  For
every URL `http(s)://github.com/<owner>/<repo>/tree/<branch>/<subpath>`
(scheme `http` or `https`; owner, repo and branch non-empty and slash-free;
subpath free of JavaScript line terminators, possibly empty or containing
slashes) it returns `http(s)://github.com/<owner>/<repo>` as the base clone
URL, `<branch>` as the branch, and `<subpath>` as the install subdirectory
(absent when the subpath is empty).  For such a URL without the
`/<subpath>` part it returns the base and the branch with no subdirectory.
A plain `http(s)://github.com/<owner>/<repo>` URL and every string the
anchored regex does not match are returned unchanged with no branch and no
subdirectory. -/
theorem c1_locator_amended :
    (∀ (secure : Bool) (owner repo br sub : List Char),
      owner ≠ [] → '/' ∉ owner → repo ≠ [] → '/' ∉ repo → br ≠ [] → '/' ∉ br →
      sub.all (fun c => !(lineTerm c)) = true →
      parseMonorepoUrl (String.mk (annUrlChars secure owner repo br (some sub))) =
        { baseRepoUrl := String.mk (plainUrlChars secure owner repo)
          branch := some (String.mk br)
          subDir := (jsOrUndef (some sub)).map String.mk }) ∧
    (∀ (secure : Bool) (owner repo br : List Char),
      owner ≠ [] → '/' ∉ owner → repo ≠ [] → '/' ∉ repo → br ≠ [] → '/' ∉ br →
      parseMonorepoUrl (String.mk (annUrlChars secure owner repo br none)) =
        { baseRepoUrl := String.mk (plainUrlChars secure owner repo)
          branch := some (String.mk br)
          subDir := none }) ∧
    (∀ (secure : Bool) (owner repo : List Char),
      owner ≠ [] → '/' ∉ owner → repo ≠ [] → '/' ∉ repo →
      parseMonorepoUrl (String.mk (plainUrlChars secure owner repo)) =
        { baseRepoUrl := String.mk (plainUrlChars secure owner repo) }) ∧
    (∀ s : String, matchGithub s.data = none →
      parseMonorepoUrl s = { baseRepoUrl := s }) := by
  refine ⟨?_, ?_, ?_, ?_⟩
  · intro secure owner repo br sub ho1 ho2 hr1 hr2 hb1 hb2 hs
    exact parse_ann_some secure owner repo br sub ho1 ho2 hr1 hr2 hb1 hb2 hs
  · intro secure owner repo br ho1 ho2 hr1 hr2 hb1 hb2
    exact parse_ann_none secure owner repo br ho1 ho2 hr1 hr2 hb1 hb2
  · intro secure owner repo ho1 ho2 hr1 hr2
    exact parse_plain_url secure owner repo ho1 ho2 hr1 hr2
  · exact parse_unmatched

/-- C1 witness: the amended theorem applied at a concrete annotated URL. -/
theorem c1_locator_witness :
    parseMonorepoUrl (String.mk (annUrlChars true "own".data "rep".data "dev".data
        (some "packages/x".data))) =
      { baseRepoUrl := String.mk (plainUrlChars true "own".data "rep".data)
        branch := some (String.mk "dev".data)
        subDir := (jsOrUndef (some "packages/x".data)).map String.mk } :=
  c1_locator_amended.1 true "own".data "rep".data "dev".data "packages/x".data
    (by decide) (by decide) (by decide) (by decide) (by decide) (by decide) (by decide)

theorem rmrf_clean (fs : FS) (dir : String) :
    ((FS.rmrf fs dir).dirs.all (fun d => !(underPath dir d)) = true) ∧
    ((FS.rmrf fs dir).files.all (fun kv => !(underPath dir kv.1)) = true) := by
  constructor <;>
    · rw [List.all_eq_true]
      intro x hx
      exact (List.mem_filter.mp hx).2

/-- C2.  For every environment (hence on every exit path: success, fatal
entrypoint abort, exhausted bundling failure, stage timeouts), the final
filesystem of a v1 build holds no directory and no file at or below the
per-build scratch directory, and the last observable event of the build is
its removal. -/
theorem c2_workspace_cleanup (env : Env) (githubUrl fmt : String) (commit : Option String) :
    ((buildMCPServer env githubUrl fmt commit).fs.dirs.all
        (fun d => !(underPath ("/tmp/mcp-" ++ env.tmpRand) d)) = true) ∧
    ((buildMCPServer env githubUrl fmt commit).fs.files.all
        (fun kv => !(underPath ("/tmp/mcp-" ++ env.tmpRand) kv.1)) = true) ∧
    (buildMCPServer env githubUrl fmt commit).trace.getLast? =
      some (Ev.rm ("/tmp/mcp-" ++ env.tmpRand)) := by
  refine ⟨(rmrf_clean _ _).1, (rmrf_clean _ _).2, ?_⟩
  show (_ ++ [Ev.rm ("/tmp/mcp-" ++ env.tmpRand)]).getLast? = _
  simp

/-- C6 (counterexample).  The claim says no checkout failure ever propagates
out of the Fetch stage as a build failure.  In the run below the checkout of
the pinned commit fails, the recovery query `git rev-parse --abbrev-ref
HEAD` (awaited outside any try/catch, src/v1/bundler.ts 144-147) also
fails, and the whole build fails with the generic fatal error. -/
theorem c6_checkout_counterexample :
    envC6.run 1 "/tmp/mcp-0011223344556677" "git checkout deadbeef" =
      ExecRes.fail "fatal: reference is not a tree" ∧
    (buildMCPServer envC6 "https://github.com/o/r" "mjs" (some "deadbeef")).result =
      Except.error "Failed to build the server code." := by
  constructor
  · decide
  · decide

/-- C6 (amended).  A failure of the commit checkout step is non-fatal
provided the recovery query for the current branch succeeds: whatever the
checkout outcome, the checkout step completes successfully and the pipeline
continues on whatever branch the clone left checked out.  (When that
recovery query itself fails, the failure propagates, as the counterexample
shows.) -/
theorem c6_checkout_amended (env : Env) (td c s : String) (st : St)
    (h : env.run (st.tick + 1) td "git rev-parse --abbrev-ref HEAD" = .ok s) :
    ((checkoutStep env td (some c)) st).1 = Except.ok () := by
  unfold checkoutStep Act.tryCatch Act.bind execCmd Act.ret
  cases henv : env.run st.tick td ("git checkout " ++ c) with
  | ok out => simp [henv]
  | fail m => simp [henv, h]

/-- C6 witness: the amended theorem at a concrete environment. -/
theorem c6_checkout_witness :
    ((checkoutStep envC6w "/tmp/w" (some "abc1234"))
        { fs := { files := [], dirs := [] }, tick := 0, trace := [] }).1 = Except.ok () :=
  c6_checkout_amended envC6w "/tmp/w" "abc1234" "main"
    { fs := { files := [], dirs := [] }, tick := 0, trace := [] } (by decide)

theorem readF_writeF_same (fs : FS) (p c : String) : readF (writeF fs p c) p = some c := by
  simp [readF, writeF, List.find?]

/-- C5.  Whenever the first compilation attempt fails with a message
containing the `Symbol.dispose` signature and the install directory holds a
readable tsconfig.json whose text parses as JSON, the typecheck stage
performs exactly the sequence: failed compile, config read, backup write,
patched-config write, retried compile, restoring write; the stage itself
never fails; and - whatever the outcome of the retried compilation - the
final on-disk contents of tsconfig.json equal its pre-patch contents. -/
theorem c5_tsconfig_restore (env : Env) (installDir m c : String) (cfg : TsConfig) (st : St)
    (h1 : env.run st.tick installDir "bun run tsc" = .fail m)
    (h2 : strContains m "Symbol.dispose" = true)
    (h3 : readF st.fs (pathJoin installDir "tsconfig.json") = some c)
    (h4 : env.parseTsconfig c = some cfg) :
    ((typecheckStage env installDir) st).1 = Except.ok () ∧
    readF ((typecheckStage env installDir) st).2.fs
      (pathJoin installDir "tsconfig.json") = some c ∧
    ((typecheckStage env installDir) st).2.trace = st.trace ++
      [Ev.exec installDir "bun run tsc",
       Ev.fsRead (pathJoin installDir "tsconfig.json"),
       Ev.fsWrite (pathJoin installDir "tsconfig.json" ++ ".backup") c,
       Ev.fsWrite (pathJoin installDir "tsconfig.json")
         (env.printTsconfig { cfg with target := some "ES2022", lib := ["ES2022", "DOM"] }),
       Ev.exec installDir "bun run tsc",
       Ev.fsWrite (pathJoin installDir "tsconfig.json") c] := by
  unfold typecheckStage tsconfigFix Act.tryCatch Act.bind execCmd fsReadFile fsWriteFile
    Act.ret Act.throwA
  simp only [h1, h2, if_true, h3, h4]
  cases h5 : env.run (st.tick + 1) installDir "bun run tsc" <;>
    simp [h5, readF_writeF_same, List.append_assoc]

/-- C5 witness: the restore theorem at a concrete environment in which both
compilation attempts fail. -/
theorem c5_tsconfig_witness :
    ((typecheckStage envC5w "/w")
        { fs := { files := [("/w/tsconfig.json", "{}")], dirs := [] },
          tick := 0, trace := [] }).1 = Except.ok () ∧
    readF ((typecheckStage envC5w "/w")
        { fs := { files := [("/w/tsconfig.json", "{}")], dirs := [] },
          tick := 0, trace := [] }).2.fs (pathJoin "/w" "tsconfig.json") = some "{}" ∧
    ((typecheckStage envC5w "/w")
        { fs := { files := [("/w/tsconfig.json", "{}")], dirs := [] },
          tick := 0, trace := [] }).2.trace =
      [] ++
      [Ev.exec "/w" "bun run tsc",
       Ev.fsRead (pathJoin "/w" "tsconfig.json"),
       Ev.fsWrite (pathJoin "/w" "tsconfig.json" ++ ".backup") "{}",
       Ev.fsWrite (pathJoin "/w" "tsconfig.json")
         (envC5w.printTsconfig { ({} : TsConfig) with target := some "ES2022", lib := ["ES2022", "DOM"] }),
       Ev.exec "/w" "bun run tsc",
       Ev.fsWrite (pathJoin "/w" "tsconfig.json") "{}"] :=
  c5_tsconfig_restore envC5w "/w" "error TS2318: Cannot find global type Symbol.dispose" "{}"
    {} { fs := { files := [("/w/tsconfig.json", "{}")], dirs := [] }, tick := 0, trace := [] }
    (by decide) (by decide) (by decide) (by decide)

theorem findConventional_spec (dir : String) (cands : List String) (st : St) :
    ((findConventional dir cands) st).1 =
      Except.ok (cands.find? (fun f => fileExistsB st.fs (pathJoin dir f))) ∧
    ((findConventional dir cands) st).2.fs = st.fs := by
  induction cands generalizing st with
  | nil => simp [findConventional, Act.ret, List.find?]
  | cons f rest ih =>
    unfold findConventional Act.tryCatch Act.bind fsAccess Act.ret
    by_cases hf : fileExistsB st.fs (pathJoin dir f)
    · simp [hf, List.find?]
    · simpa [hf, List.find?] using ih _

theorem find?_append_some {α : Type} {p : α → Bool} {l1 : List α} (l2 : List α) {f : α}
    (h : l1.find? p = some f) : (l1 ++ l2).find? p = some f := by
  induction l1 with
  | nil => simp [List.find?] at h
  | cons a as ih =>
    rw [List.cons_append]
    cases hp : p a with
    | true =>
      rw [List.find?_cons_of_pos _ hp] at h ⊢
      exact h
    | false =>
      rw [List.find?_cons_of_neg _ (by simp [hp])] at h
      rw [List.find?_cons_of_neg _ (by simp [hp])]
      exact ih h

theorem possibleEntrypointsV2_eq :
    possibleEntrypointsV2 = possibleEntrypoints ++ ["src/bin.ts", "src/server.ts"] := rfl

theorem buildScriptStep_invar (env : Env) (dir : String) (st : St) :
    ((buildScriptStep env dir) st).1 = Except.ok () ∧
    ((buildScriptStep env dir) st).2.fs = st.fs := by
  unfold buildScriptStep Act.tryCatch Act.bind fsReadFile Act.throwA Act.ret execCmd
  cases h0 : readF st.fs (pathJoin dir "package.json") with
  | none => simp [h0]
  | some pj =>
    cases h1 : env.parsePkg pj with
    | none => simp [h0, h1]
    | some pkg =>
      by_cases h2 : distTrigger pkg = true
      · cases h3 : env.run st.tick dir "npm run build" with
        | ok out => simp [h0, h1, h2, h3]
        | fail m =>
          cases h4 : env.run (st.tick + 1) dir "bun run build" with
          | ok out => simp [h0, h1, h2, h3, h4]
          | fail m2 => simp [h0, h1, h2, h3, h4]
      · simp [h0, h1, h2]

theorem manifestFallbackV2_bin (env : Env) (dir : String) (st : St) (pj : String)
    (pkg : PackageJson) (b : String)
    (hread : readF st.fs (pathJoin dir "package.json") = some pj)
    (hparse : env.parsePkg pj = some pkg)
    (hbin : binFirst pkg.bin = some b)
    (hbex : fileExistsB st.fs (pathJoin dir (normMain b)) = true) :
    ((manifestFallbackV2 env dir) st).1 = Except.ok (some (normMain b)) := by
  unfold manifestFallbackV2 Act.tryCatch Act.bind fsReadFile fsAccess Act.throwA Act.ret
  simp [hread, hparse, hbin, hbex]

/-- C4 (counterexample).  The claim says that with no conventional path
present and both `bin` and `main` declared and existing, resolution selects
the `bin` path.  On the v1 resolver (src/v1/bundler.ts 248-295, the code
the claim cites) `bin` is never consulted: with `cli.js` and `main.js` both
on disk and declared, v1 selects `main.js`.  On the v2 resolver, with none
of the five conventional paths the claim lists present, the probe can
still hit one of the two additional candidates: with `src/server.ts` on
disk, v2 selects it rather than the declared `bin` path. -/
theorem c4_entrypoint_counterexample :
    ((resolveEntrypoint envC4 "/r") stC4manifest).1 = Except.ok (some "main.js") ∧
    ((entryStageV2 envC4 "/r") stC4server).1 = Except.ok (some "src/server.ts") := by
  exact ⟨by decide, by decide⟩

/-- C4 (amended).  Conventional-first: whenever one of the five listed
conventional paths exists, the v1 resolver returns the first existing one,
and so does the v2 resolver (its probe list is the same five followed by
`src/bin.ts` and `src/server.ts`, so the extra candidates cannot shadow
them) - in both cases whatever the manifest declares.  Manifest fallback:
the v1 resolver never consults `bin` and selects the normalized truthy
`main` path when it exists; the v2 resolver, when none of its seven
conventional candidates exists, selects the normalized `bin` path (single
string, or first truthy map entry) over a declared and existing `main`. -/
theorem c4_entrypoint_preference :
    (∀ (env : Env) (dir : String) (st : St) (f : String),
      possibleEntrypoints.find? (fun g => fileExistsB st.fs (pathJoin dir g)) = some f →
      ((resolveEntrypoint env dir) st).1 = Except.ok (some f)) ∧
    (∀ (env : Env) (dir : String) (st : St) (f : String),
      possibleEntrypoints.find? (fun g => fileExistsB st.fs (pathJoin dir g)) = some f →
      ((entryStageV2 env dir) st).1 = Except.ok (some f)) ∧
    (∀ (env : Env) (dir : String) (st : St) (pj : String) (pkg : PackageJson) (b m : String),
      possibleEntrypointsV2.find? (fun g => fileExistsB st.fs (pathJoin dir g)) = none →
      readF st.fs (pathJoin dir "package.json") = some pj →
      env.parsePkg pj = some pkg →
      binFirst pkg.bin = some b →
      fileExistsB st.fs (pathJoin dir (normMain b)) = true →
      pkg.main = some m →
      fileExistsB st.fs (pathJoin dir (normMain m)) = true →
      ((entryStageV2 env dir) st).1 = Except.ok (some (normMain b))) ∧
    (∀ (env : Env) (dir : String) (st : St) (pj : String) (pkg : PackageJson) (b m : String),
      possibleEntrypoints.find? (fun g => fileExistsB st.fs (pathJoin dir g)) = none →
      readF st.fs (pathJoin dir "package.json") = some pj →
      env.parsePkg pj = some pkg →
      binFirst pkg.bin = some b →
      fileExistsB st.fs (pathJoin dir (normMain b)) = true →
      pkg.main = some m → m ≠ "" →
      fileExistsB st.fs (pathJoin dir (normMain m)) = true →
      ((resolveEntrypoint env dir) st).1 = Except.ok (some (normMain m))) := by
  have hv2probe : ∀ (env : Env) (dir : String) (st : St) (r : Option String),
      possibleEntrypointsV2.find? (fun g => fileExistsB st.fs (pathJoin dir g)) = r →
      ∃ st2, ((entryStageV2 env dir) st) =
        (match r with
         | some f => (Except.ok (some f), st2)
         | none => (manifestFallbackV2 env dir) st2) ∧ st2.fs = st.fs := by
    intro env dir st r h7
    unfold entryStageV2 Act.bind
    rcases hbss : buildScriptStep env dir st with ⟨rb, st1⟩
    have hinv := buildScriptStep_invar env dir st
    rw [hbss] at hinv
    obtain ⟨hrb, hfs1⟩ := hinv
    dsimp only at hrb hfs1
    rw [hrb]
    dsimp only
    rcases hfc : (findConventional dir possibleEntrypointsV2) st1 with ⟨rf, st2⟩
    have hspec := findConventional_spec dir possibleEntrypointsV2 st1
    rw [hfc] at hspec
    obtain ⟨hrf, hfs2⟩ := hspec
    dsimp only at hrf hfs2
    rw [hfs1] at hrf
    rw [h7] at hrf
    rw [hrf]
    refine ⟨st2, ?_, by rw [hfs2, hfs1]⟩
    cases r with
    | none => dsimp only
    | some f => dsimp only; simp [Act.ret]
  refine ⟨?_, ?_, ?_, ?_⟩
  · intro env dir st f h
    have hspec := (findConventional_spec dir possibleEntrypoints st).1
    unfold resolveEntrypoint Act.bind
    rcases hfc : (findConventional dir possibleEntrypoints) st with ⟨r, st2⟩
    rw [hfc] at hspec
    simp only at hspec
    rw [h] at hspec
    rw [hspec]
    simp [Act.ret]
  · intro env dir st f h
    have h7 : possibleEntrypointsV2.find? (fun g => fileExistsB st.fs (pathJoin dir g)) =
        some f := by
      rw [possibleEntrypointsV2_eq]
      exact find?_append_some _ h
    obtain ⟨st2, he, _⟩ := hv2probe env dir st (some f) h7
    rw [he]
  · intro env dir st pj pkg b m h7 hread hparse hbin hbex hmain hmex
    obtain ⟨st2, he, hfs⟩ := hv2probe env dir st none h7
    rw [he]
    exact manifestFallbackV2_bin env dir st2 pj pkg b (by rw [hfs]; exact hread) hparse hbin
      (by rw [hfs]; exact hbex)
  · intro env dir st pj pkg b m h5 hread hparse hbin hbex hmain hm hmex
    have hspec := findConventional_spec dir possibleEntrypoints st
    unfold resolveEntrypoint Act.bind
    rcases hfc : (findConventional dir possibleEntrypoints) st with ⟨r, st2⟩
    rw [hfc] at hspec
    obtain ⟨hr, hfs2⟩ := hspec
    dsimp only at hr hfs2
    rw [h5] at hr
    rw [hr]
    dsimp only
    unfold Act.tryCatch fsReadFile Act.throwA Act.ret fsAccess
    simp [hfs2, hread, hparse, hmain, hm, hmex]

/-- C4 witness: the four conjuncts of the amended theorem at concrete
repository states. -/
theorem c4_entrypoint_witness :
    ((resolveEntrypoint envC4 "/r") stC4conv).1 = Except.ok (some "index.js") ∧
    ((entryStageV2 envC4 "/r") stC4conv).1 = Except.ok (some "index.js") ∧
    ((entryStageV2 envC4 "/r") stC4manifest).1 = Except.ok (some (normMain "./cli.js")) ∧
    ((resolveEntrypoint envC4 "/r") stC4manifest).1 = Except.ok (some (normMain "./main.js")) :=
  ⟨c4_entrypoint_preference.1 envC4 "/r" stC4conv "index.js" (by decide),
   c4_entrypoint_preference.2.1 envC4 "/r" stC4conv "index.js" (by decide),
   c4_entrypoint_preference.2.2.1 envC4 "/r" stC4manifest "PKG"
      { main := some "./main.js", bin := .single "./cli.js" } "./cli.js" "./main.js"
      (by decide) (by decide) (by decide) (by decide) (by decide) (by decide) (by decide),
   c4_entrypoint_preference.2.2.2 envC4 "/r" stC4manifest "PKG"
      { main := some "./main.js", bin := .single "./cli.js" } "./cli.js" "./main.js"
      (by decide) (by decide) (by decide) (by decide) (by decide) (by decide) (by decide)
      (by decide)⟩

/-- C10.  Two request URLs that differ only in the `<branch>` component of a
`/tree/<branch>[/<subpath>]` annotation produce identical builds under the
same environment (same repository state, same external-command outcomes):
identical external-command traces, identical final filesystems and
identical results.  The branch parsed by the Locator is never consumed by
any stage of the v1 pipeline. -/
theorem c10_branch_not_consumed (env : Env) (fmt : String) (commit : Option String)
    (secure : Bool) (owner repo b1 b2 : List Char) (sub : Option (List Char))
    (ho1 : owner ≠ []) (ho2 : '/' ∉ owner) (hr1 : repo ≠ []) (hr2 : '/' ∉ repo)
    (hb11 : b1 ≠ []) (hb12 : '/' ∉ b1) (hb21 : b2 ≠ []) (hb22 : '/' ∉ b2)
    (hs : ∀ s, sub = some s → s.all (fun c => !(lineTerm c)) = true) :
    buildMCPServer env (String.mk (annUrlChars secure owner repo b1 sub)) fmt commit =
    buildMCPServer env (String.mk (annUrlChars secure owner repo b2 sub)) fmt commit := by
  show buildFrom env (parseMonorepoUrl (String.mk (annUrlChars secure owner repo b1 sub))).baseRepoUrl
      (parseMonorepoUrl (String.mk (annUrlChars secure owner repo b1 sub))).subDir fmt commit =
    buildFrom env (parseMonorepoUrl (String.mk (annUrlChars secure owner repo b2 sub))).baseRepoUrl
      (parseMonorepoUrl (String.mk (annUrlChars secure owner repo b2 sub))).subDir fmt commit
  cases sub with
  | none =>
    rw [parse_ann_none secure owner repo b1 ho1 ho2 hr1 hr2 hb11 hb12,
        parse_ann_none secure owner repo b2 ho1 ho2 hr1 hr2 hb21 hb22]
  | some s =>
    rw [parse_ann_some secure owner repo b1 s ho1 ho2 hr1 hr2 hb11 hb12 (hs s rfl),
        parse_ann_some secure owner repo b2 s ho1 ho2 hr1 hr2 hb21 hb22 (hs s rfl)]

/-- C10 witness: the hyperproperty at two concrete URLs differing only in
the branch component. -/
theorem c10_branch_witness :
    buildMCPServer envC10w
        (String.mk (annUrlChars true "o".data "r".data "main".data (some "pkg".data)))
        "mjs" (some "abc") =
    buildMCPServer envC10w
        (String.mk (annUrlChars true "o".data "r".data "dev".data (some "pkg".data)))
        "mjs" (some "abc") :=
  c10_branch_not_consumed envC10w "mjs" (some "abc") true "o".data "r".data
    "main".data "dev".data (some "pkg".data)
    (by decide) (by decide) (by decide) (by decide) (by decide) (by decide)
    (by decide) (by decide) (by intro s hsome; cases hsome; decide)

theorem genHex_length (r : Fin 16 → Nat) : (genHex r).length = 32 := by
  simp [genHex, String.length]

theorem genHex_ne_empty (r : Fin 16 → Nat) : genHex r ≠ "" := by
  intro h
  have h2 := congrArg String.length h
  rw [genHex_length] at h2
  simp at h2

theorem hexChar_isHex (n : Nat) : isHexDigit (hexChar n) = true := by
  unfold hexChar
  have hm : n % 16 < 16 := Nat.mod_lt _ (by norm_num)
  set m := n % 16 with hdef
  interval_cases m <;> decide

theorem genHex_all_hex (r : Fin 16 → Nat) :
    ∀ c ∈ (genHex r).data, isHexDigit c = true := by
  intro c hc
  simp only [genHex, List.mem_ofFn, Set.mem_range] at hc
  obtain ⟨i, hi⟩ := hc
  by_cases hp : i.val % 2 = 0 <;> simp only [hp, if_true, if_false, reduceIte] at hi <;>
    rw [← hi] <;> exact hexChar_isHex _

theorem mk_ne_empty (l : List Char) (h : l ≠ []) : String.mk l ≠ "" := by
  intro he
  apply h
  have h2 : (String.mk l).data = ("" : String).data := by rw [he]
  simpa using h2

theorem scanFor_some (t : List Char → Option (List Char)) (s x : List Char)
    (h : scanFor t s = some x) : ∃ s2, t s2 = some x := by
  induction s with
  | nil => exact ⟨[], h⟩
  | cons c cs ih =>
    unfold scanFor at h
    cases h2 : t (c :: cs) with
    | some y =>
      rw [h2] at h
      dsimp only at h
      exact ⟨c :: cs, h2.trans h⟩
    | none =>
      rw [h2] at h
      dsimp only at h
      exact ih h

theorem p1At_ne (s x : List Char) (h : p1At s = some x) : x ≠ [] := by
  unfold p1At at h
  cases h0 : stripLead ("// COMMIT_HASH:".data) s with
  | none => rw [h0] at h; simp at h
  | some r =>
    rw [h0] at h
    dsimp only at h
    by_cases h1 : (takeHexRun r).1 = []
    · rw [if_pos h1] at h
      by_cases h2 : begins ("unknown".data) r
      · rw [if_pos h2] at h
        rw [← Option.some.inj h]
        decide
      · rw [if_neg h2] at h; simp at h
    · rw [if_neg h1] at h
      exact (Option.some.inj h) ▸ h1

theorem p2At_ne (s x : List Char) (h : p2At s = some x) : x ≠ [] := by
  unfold p2At at h
  cases h0 : stripLead ("COMMIT_HASH_FOR_RESPONSE:".data) s with
  | none => rw [h0] at h; simp at h
  | some r =>
    rw [h0] at h
    dsimp only at h
    by_cases h1 : (takeHexRun r).1 = []
    · rw [if_pos h1] at h; simp at h
    · rw [if_neg h1] at h
      exact (Option.some.inj h) ▸ h1

theorem p3At_ne (s x : List Char) (h : p3At s = some x) : x ≠ [] := by
  unfold p3At at h
  cases h0 : stripLead ("gs://".data) s with
  | none => rw [h0] at h; simp at h
  | some r =>
    rw [h0] at h
    dsimp only at h
    by_cases h1 : (takeSeg r).1 = []
    · rw [if_pos h1] at h; simp at h
    · rw [if_neg h1] at h
      cases h2 : (takeSeg r).2 with
      | nil => rw [h2] at h; simp at h
      | cons a r1 =>
        rw [h2] at h
        dsimp only at h
        by_cases h3 : (takeSeg r1).1 = []
        · rw [if_pos h3] at h; simp at h
        · rw [if_neg h3] at h
          cases h4 : (takeSeg r1).2 with
          | nil => rw [h4] at h; simp at h
          | cons b r2 =>
            rw [h4] at h
            dsimp only at h
            by_cases h5 : (takeSeg r2).1 = []
            · rw [if_pos h5] at h; simp at h
            · rw [if_neg h5] at h
              cases h6 : (takeSeg r2).2 with
              | nil => rw [h6] at h; simp at h
              | cons d r3 =>
                rw [h6] at h
                dsimp only at h
                cases h7 : (takeSeg r3).1 with
                | nil => rw [h7] at h; simp at h
                | cons e t =>
                  rw [h7] at h
                  dsimp only at h
                  by_cases h8 : containsSub (".tar.gz".data) t
                  · rw [if_pos h8] at h
                    exact (Option.some.inj h) ▸ h3
                  · rw [if_neg h8] at h; simp at h

theorem p4At_ne (s x : List Char) (h : p4At s = some x) : x ≠ [] := by
  unfold p4At at h
  cases h0 : stripLead ("Using actual commit hash: ".data) s with
  | none => rw [h0] at h; simp at h
  | some r =>
    rw [h0] at h
    dsimp only at h
    by_cases h1 : (takeHexRun r).1 = []
    · rw [if_pos h1] at h; simp at h
    · rw [if_neg h1] at h
      exact (Option.some.inj h) ▸ h1

theorem extractFallback_ne (rs pin : String) (hp : pin ≠ "") :
    extractFallback rs pin ≠ "" := by
  unfold extractFallback
  cases h2 : scanFor p2At rs.data with
  | some h =>
    obtain ⟨s2, hs2⟩ := scanFor_some _ _ _ h2
    exact mk_ne_empty _ (p2At_ne _ _ hs2)
  | none =>
    dsimp only
    cases h3 : scanFor p3At rs.data with
    | some g2 =>
      obtain ⟨s2, hs2⟩ := scanFor_some _ _ _ h3
      exact mk_ne_empty _ (p3At_ne _ _ hs2)
    | none =>
      dsimp only
      cases h4 : scanFor p4At rs.data with
      | some h =>
        obtain ⟨s2, hs2⟩ := scanFor_some _ _ _ h4
        exact mk_ne_empty _ (p4At_ne _ _ hs2)
      | none => exact hp

theorem extractCommit_ne (rs pin : String) (hp : pin ≠ "") :
    extractCommit rs pin ≠ "" := by
  unfold extractCommit
  cases h1 : scanFor p1At rs.data with
  | some cap =>
    dsimp only
    by_cases hu : cap = "unknown".data
    · rw [if_pos hu]; exact extractFallback_ne rs pin hp
    · rw [if_neg hu]
      obtain ⟨s2, hs2⟩ := scanFor_some _ _ _ h1
      exact mk_ne_empty _ (p1At_ne _ _ hs2)
  | none => exact extractFallback_ne rs pin hp

theorem jsOrStr_ne (q : Option String) (d : String) (hd : d ≠ "") :
    jsOrStr q d ≠ "" := by
  cases q with
  | none => exact hd
  | some s =>
    unfold jsOrStr
    dsimp only
    by_cases hs : s = ""
    · rw [if_pos hs]; exact hd
    · rw [if_neg hs]; exact hs

theorem mcpIdUsed_ne (env : HttpEnv) (mq : Option String) : mcpIdUsed env mq ≠ "" :=
  jsOrStr_ne mq (genHex env.randBytes) (genHex_ne_empty env.randBytes)

theorem mk_data (s : String) : String.mk s.data = s := rfl

theorem data_append (s t : String) : (s ++ t).data = s.data ++ t.data := rfl

theorem data_ne_nil (s : String) (h : s ≠ "") : s.data ≠ [] := by
  intro hd
  apply h
  cases s with
  | mk d =>
    rw [show (String.mk d).data = d from rfl] at hd
    rw [hd]

theorem takeHexRun_append (xs rest : List Char) (hx : ∀ c ∈ xs, isHexDigit c = true)
    (hr : ∀ c, rest.head? = some c → isHexDigit c = false) :
    takeHexRun (xs ++ rest) = (xs, rest) := by
  induction xs with
  | nil =>
    cases rest with
    | nil => rfl
    | cons c cs =>
      simp only [List.nil_append]
      unfold takeHexRun
      rw [show takeHexRun.isHexB c = isHexDigit c from rfl]
      rw [hr c rfl]
      simp
  | cons a as ih =>
    have ha : isHexDigit a = true := hx a (by simp)
    have ih2 := ih (fun c hc => hx c (by simp [hc]))
    simp only [List.cons_append]
    unfold takeHexRun
    rw [show takeHexRun.isHexB a = isHexDigit a from rfl, ha]
    simp [ih2]

theorem hex_ne_unknown (xs : List Char) (hx : ∀ c ∈ xs, isHexDigit c = true) :
    xs ≠ "unknown".data := by
  intro he
  exact absurd (hx 'u' (by rw [he]; decide)) (by decide)

theorem hex_ne_latest (A : String) (hx : ∀ c ∈ A.data, isHexDigit c = true) :
    A ≠ "latest" := by
  intro he
  subst he
  exact absurd (hx 'l' (by decide)) (by decide)

theorem scanFor_here (t : List Char → Option (List Char)) (l x : List Char)
    (h : t l = some x) : scanFor t l = some x := by
  cases l with
  | nil => exact h
  | cons c cs => unfold scanFor; rw [h]

theorem extractCommit_marker (A raw pin : String) (hne : A ≠ "")
    (hx : ∀ c ∈ A.data, isHexDigit c = true) :
    extractCommit ("// COMMIT_HASH:" ++ A ++ "\n" ++ raw) pin = A := by
  have hdata : ("// COMMIT_HASH:" ++ A ++ "\n" ++ raw).data =
      "// COMMIT_HASH:".data ++ (A.data ++ '\n' :: raw.data) := by
    simp [data_append, List.append_assoc]
  have htake : takeHexRun (A.data ++ '\n' :: raw.data) = (A.data, '\n' :: raw.data) :=
    takeHexRun_append A.data ('\n' :: raw.data) hx
      (fun c hc => by injection hc with hc2; subst hc2; decide)
  have hp1 : p1At (("// COMMIT_HASH:" ++ A ++ "\n" ++ raw).data) = some A.data := by
    rw [hdata]
    unfold p1At
    rw [stripLead_append]
    dsimp only
    rw [htake]
    dsimp only
    rw [if_neg (data_ne_nil A hne)]
  unfold extractCommit
  rw [scanFor_here _ _ _ hp1]
  dsimp only
  rw [if_neg (hex_ne_unknown A.data hx)]

theorem genHex40_length (r : Fin 20 → Nat) : (genHex40 r).length = 40 := by
  simp [genHex40, String.length]

theorem genHex40_ne_empty (r : Fin 20 → Nat) : genHex40 r ≠ "" := by
  intro h
  have h2 := congrArg String.length h
  rw [genHex40_length] at h2
  simp at h2

theorem genHex40_all_hex (r : Fin 20 → Nat) :
    ∀ c ∈ (genHex40 r).data, isHexDigit c = true := by
  intro c hc
  simp only [genHex40, List.mem_ofFn, Set.mem_range] at hc
  obtain ⟨i, hi⟩ := hc
  by_cases hp : i.val % 2 = 0 <;> simp only [hp, if_true, if_false, reduceIte] at hi <;>
    rw [← hi] <;> exact hexChar_isHex _

theorem revOk_props (env : Env) (a : String) (hg : gitFaithful env) (h : revOk env a) :
    a ≠ "" ∧ ∀ c ∈ a.data, isHexDigit c = true := by
  rcases h with ⟨t, cwd, out, hrun, rfl⟩ | rfl
  · exact hg t cwd out hrun
  · exact ⟨genHex40_ne_empty _, genHex40_all_hex _⟩

theorem revResolve_spec (env : Env) (td : String) (st : St) :
    ∃ a, ((revResolve env td) st).1 = Except.ok a ∧ revOk env a := by
  cases h : env.run st.tick td "git rev-parse HEAD" with
  | ok out =>
    refine ⟨jsTrim out, ?_, Or.inl ⟨st.tick, td, out, h, rfl⟩⟩
    unfold revResolve Act.tryCatch Act.bind execCmd Act.ret
    simp [h]
  | fail m =>
    refine ⟨genHex40 env.randBytes20, ?_, Or.inr rfl⟩
    unfold revResolve Act.tryCatch Act.bind execCmd Act.ret
    simp [h]

theorem v2Front_spec (env : Env) (base : String) (subDir commit : Option String)
    (tempDir : String) (st : St) (a : String) (st2 : St)
    (h : (v2Front env base subDir commit tempDir) st = (Except.ok a, st2)) :
    revOk env a := by
  unfold v2Front Act.bind at h
  dsimp only at h
  rcases h1 : (fsMkdir tempDir) st with ⟨r1, s1⟩
  rw [h1] at h
  cases r1 with
  | error e => dsimp only at h; simp at h
  | ok u1 =>
    dsimp only at h
    rcases h2 : (cloneStage env tempDir base) s1 with ⟨r2, s2⟩
    rw [h2] at h
    cases r2 with
    | error e => dsimp only at h; simp at h
    | ok u2 =>
      dsimp only at h
      rcases h3 : (checkoutStep env tempDir commit) s2 with ⟨r3, s3⟩
      rw [h3] at h
      cases r3 with
      | error e => dsimp only at h; simp at h
      | ok u3 =>
        dsimp only at h
        obtain ⟨a0, ha1, ha2⟩ := revResolve_spec env tempDir s3
        rcases h4 : (revResolve env tempDir) s3 with ⟨r4, s4⟩
        rw [h4] at h
        rw [h4] at ha1
        dsimp only at ha1
        subst ha1
        dsimp only at h
        rcases h5 : (installStageV2 env (installDirOf tempDir subDir)) s4 with ⟨r5, s5⟩
        rw [h5] at h
        cases r5 with
        | error e => dsimp only at h; simp at h
        | ok u5 =>
          dsimp only at h
          rcases h6 : (typecheckStageV2 env (installDirOf tempDir subDir)) s5 with ⟨r6, s6⟩
          rw [h6] at h
          cases r6 with
          | error e => dsimp only at h; simp at h
          | ok u6 =>
            dsimp only at h
            unfold Act.ret at h
            rw [Prod.mk.injEq] at h
            obtain ⟨h7, h8⟩ := h
            rw [Except.ok.injEq] at h7
            exact h7 ▸ ha2

theorem v2Rest_shape (env : Env) (tempDir installDir a : String) (mcpIdOpt : Option String)
    (st : St) (r : V2Ret) (st2 : St)
    (h : (v2Rest env tempDir installDir a mcpIdOpt) st = (Except.ok r, st2)) :
    (mcpIdOpt = none → ∃ d A, r = V2Ret.inlineData d A) ∧
    (∀ m, mcpIdOpt = some m → ∃ raw, r = V2Ret.uploaded (markerOf a ++ raw)) := by
  unfold v2Rest Act.bind at h
  dsimp only at h
  rcases h1 : (entryStageV2 env installDir) st with ⟨r1, s1⟩
  rw [h1] at h
  cases r1 with
  | error e => dsimp only at h; simp at h
  | ok eOpt =>
    dsimp only at h
    cases eOpt with
    | none => unfold Act.throwA at h; simp at h
    | some entry =>
      dsimp only at h
      rcases h2 : (bundleStageV2 env installDir entry) s1 with ⟨r2, s2⟩
      rw [h2] at h
      cases r2 with
      | error e => dsimp only at h; simp at h
      | ok u2 =>
        dsimp only at h
        rcases h3 : (fsReadFile (pathJoin installDir "bundle.mjs")) s2 with ⟨r3, s3⟩
        rw [h3] at h
        cases r3 with
        | error e => dsimp only at h; simp at h
        | ok raw =>
          dsimp only at h
          rcases h4 : (archiveStage env tempDir installDir a mcpIdOpt) s3 with ⟨r4, s4⟩
          rw [h4] at h
          cases r4 with
          | error e => dsimp only at h; simp at h
          | ok a2 =>
            dsimp only at h
            cases mcpIdOpt with
            | none =>
              dsimp only at h
              unfold Act.ret at h
              rw [Prod.mk.injEq] at h
              obtain ⟨h5, h6⟩ := h
              rw [Except.ok.injEq] at h5
              exact ⟨fun _ => ⟨raw, if a2 = "" then "latest" else a2, h5.symm⟩,
                fun m hm => Option.noConfusion hm⟩
            | some m =>
              dsimp only at h
              unfold Act.ret at h
              rw [Prod.mk.injEq] at h
              obtain ⟨h5, h6⟩ := h
              rw [Except.ok.injEq] at h5
              exact ⟨fun hm => Option.noConfusion hm, fun m2 hm2 => ⟨raw, h5.symm⟩⟩

theorem buildV2From_shape (env : Env) (base : String) (subDir commit mcpIdOpt : Option String)
    (r : V2Ret) (h : (buildV2From env base subDir commit mcpIdOpt).result = Except.ok r) :
    ∃ a, revOk env a ∧
      (mcpIdOpt = none → ∃ d A, r = V2Ret.inlineData d A) ∧
      (∀ m, mcpIdOpt = some m → ∃ raw, r = V2Ret.uploaded (markerOf a ++ raw)) := by
  unfold buildV2From at h
  dsimp only at h
  unfold Act.tryCatch at h
  rcases hb : (v2Body env base subDir commit mcpIdOpt ("/tmp/mcp-" ++ env.tmpRand))
      { fs := { files := [], dirs := [] }, tick := 0, trace := [] } with ⟨rb, stb⟩
  rw [hb] at h
  cases rb with
  | error e => unfold Act.throwA at h; simp at h
  | ok v =>
    dsimp only at h
    rw [Except.ok.injEq] at h
    subst h
    unfold v2Body Act.bind at hb
    dsimp only at hb
    rcases hf : (v2Front env base subDir commit ("/tmp/mcp-" ++ env.tmpRand))
        { fs := { files := [], dirs := [] }, tick := 0, trace := [] } with ⟨rf, stf⟩
    rw [hf] at hb
    cases rf with
    | error e => dsimp only at hb; simp at hb
    | ok a =>
      dsimp only at hb
      have hrev := v2Front_spec env base subDir commit ("/tmp/mcp-" ++ env.tmpRand)
        { fs := { files := [], dirs := [] }, tick := 0, trace := [] } a stf hf
      have hshape := v2Rest_shape env ("/tmp/mcp-" ++ env.tmpRand)
        (installDirOf ("/tmp/mcp-" ++ env.tmpRand) subDir) a mcpIdOpt stf v stb hb
      exact ⟨a, hrev, hshape⟩

theorem buildMCPServerV2_shape (env : Env) (url : String) (commit mcpIdOpt : Option String)
    (r : V2Ret) (h : (buildMCPServerV2 env url commit mcpIdOpt).result = Except.ok r) :
    ∃ a, revOk env a ∧
      (mcpIdOpt = none → ∃ d A, r = V2Ret.inlineData d A) ∧
      (∀ m, mcpIdOpt = some m → ∃ raw, r = V2Ret.uploaded (markerOf a ++ raw)) := by
  unfold buildMCPServerV2 at h
  dsimp only at h
  exact buildV2From_shape env _ _ commit mcpIdOpt r h

theorem v2race_mode (env : HttpEnv) (url commit : String) (mcpIdOpt : Option String)
    (r : V2Ret) (h : v2race env url commit mcpIdOpt = Except.ok r) :
    ∃ a, revOk env.env2 a ∧
      (mcpIdOpt = none → ∃ d A, r = V2Ret.inlineData d A) ∧
      (∀ m, mcpIdOpt = some m → ∃ raw, r = V2Ret.uploaded (markerOf a ++ raw)) := by
  unfold v2race at h
  cases htf : env.timeoutFired with
  | true => rw [htf] at h; simp at h
  | false =>
    rw [htf] at h
    rw [if_neg (by simp)] at h
    cases hres : (buildMCPServerV2 env.env2 url (some commit) mcpIdOpt).result with
    | error m => rw [hres] at h; simp at h
    | ok v =>
      rw [hres] at h
      dsimp only at h
      rw [Except.ok.injEq] at h
      subst h
      exact buildMCPServerV2_shape env.env2 url (some commit) mcpIdOpt v hres

theorem v2Handler_eq (env : HttpEnv) (u : String) (cq mq : Option String) (hu : u ≠ "") :
    v2Handler env (some u) cq mq =
      match v2race env u (jsOrStr cq "latest") (v2arg env mq) with
      | .error e =>
        if strContains e.message "timed out" then
          { status := 504, errMsg := some timeoutRespMsg }
        else { status := 500, errMsg := some e.message, details := e.stack }
      | .ok (.inlineData d a) => { status := 200, success := some true, dataOut := some d }
      | .ok (.uploaded rs) =>
        { status := 200, success := some true
          gcpUpload := some { bucket := env.gcpBucketName
                              path := mcpIdUsed env mq ++ "/" ++
                                extractCommit rs (jsOrStr cq "latest") ++ "/"
                              files := ["bundle-" ++
                                extractCommit rs (jsOrStr cq "latest") ++ ".tar.gz"] } } := by
  have hno : ¬ (mcpIdUsed env mq = "" ∧ ¬ env.disableGcp = "true") :=
    fun hc => mcpIdUsed_ne env mq hc.1
  simp only [v2Handler, v2arg]
  rw [if_neg hu, if_neg hno]

theorem v2Handler_enum (env : HttpEnv) (uq cq mq : Option String) :
    ((uq = none ∨ uq = some "") ∧
      v2Handler env uq cq mq = { status := 400, errMsg := some "Github url is required" }) ∨
    (∃ u, uq = some u ∧ u ≠ "" ∧
      ((∃ e, v2race env u (jsOrStr cq "latest") (v2arg env mq) = .error e ∧
          strContains e.message "timed out" = true ∧
          v2Handler env uq cq mq = { status := 504, errMsg := some timeoutRespMsg }) ∨
       (∃ e, v2race env u (jsOrStr cq "latest") (v2arg env mq) = .error e ∧
          strContains e.message "timed out" = false ∧
          v2Handler env uq cq mq =
            { status := 500, errMsg := some e.message, details := e.stack }) ∨
       (∃ d a, v2race env u (jsOrStr cq "latest") (v2arg env mq) =
            .ok (.inlineData d a) ∧
          v2Handler env uq cq mq =
            { status := 200, success := some true, dataOut := some d }) ∨
       (∃ rs, v2race env u (jsOrStr cq "latest") (v2arg env mq) = .ok (.uploaded rs) ∧
          v2Handler env uq cq mq =
            { status := 200, success := some true
              gcpUpload := some
                { bucket := env.gcpBucketName
                  path := mcpIdUsed env mq ++ "/" ++
                    extractCommit rs (jsOrStr cq "latest") ++ "/"
                  files := ["bundle-" ++
                    extractCommit rs (jsOrStr cq "latest") ++ ".tar.gz"] } }))) := by
  cases uq with
  | none => exact Or.inl ⟨Or.inl rfl, rfl⟩
  | some u =>
    by_cases hu : u = ""
    · subst hu
      exact Or.inl ⟨Or.inr rfl, rfl⟩
    · refine Or.inr ⟨u, rfl, hu, ?_⟩
      rw [v2Handler_eq env u cq mq hu]
      cases hr : v2race env u (jsOrStr cq "latest") (v2arg env mq) with
      | error e =>
        by_cases ht : strContains e.message "timed out"
        · exact Or.inl ⟨e, rfl, ht, by dsimp only; rw [if_pos ht]⟩
        · exact Or.inr (Or.inl ⟨e, rfl, by simpa using ht, by dsimp only; rw [if_neg ht]⟩)
      | ok v =>
        cases v with
        | inlineData d a => exact Or.inr (Or.inr (Or.inl ⟨d, a, rfl, rfl⟩))
        | uploaded rs => exact Or.inr (Or.inr (Or.inr ⟨rs, rfl, rfl⟩))

theorem envGood_gitFaithful : gitFaithful envGood := by
  intro t cwd out h
  rw [show envGood.run t cwd "git rev-parse HEAD" = ExecRes.ok "ab12cd\n" from rfl] at h
  injection h with h1
  subst h1
  exact ⟨by decide, by decide⟩

/-- C3.  Every `/v2/bundler` response that reports a remote publish
descriptor does so for a run whose raced pipeline call succeeded in upload
mode, and - provided `git rev-parse HEAD` is faithful, i.e. resolves only
to trimmed non-empty hex output - the revision `A` in the reported archive
filename `bundle-<A>.tar.gz` and object path `<mcpId>/<A>/` is exactly the
commit string the pipeline resolved and stamped into its marker line:
non-empty, all hex digits, and in particular never the default pin
`latest`. -/
theorem c3_revision_reporting (env : HttpEnv) (uq cq mq : Option String) (g : GcpUpload)
    (hgit : gitFaithful env.env2)
    (h : (v2Handler env uq cq mq).gcpUpload = some g) :
    ∃ A u raw, uq = some u ∧ A ≠ "" ∧ (∀ c ∈ A.data, isHexDigit c = true) ∧ A ≠ "latest" ∧
      v2race env u (jsOrStr cq "latest") (v2arg env mq) =
        Except.ok (V2Ret.uploaded (markerOf A ++ raw)) ∧
      g.files = ["bundle-" ++ A ++ ".tar.gz"] ∧
      g.path = mcpIdUsed env mq ++ "/" ++ A ++ "/" := by
  rcases v2Handler_enum env uq cq mq with ⟨_, he⟩ | ⟨u, hq, hu2, hcase⟩
  · rw [he] at h; simp at h
  · rcases hcase with ⟨e, hv, ht, he⟩ | ⟨e, hv, ht, he⟩ | ⟨d, a2, hv, he⟩ | ⟨rs, hv, he⟩
    · rw [he] at h; simp at h
    · rw [he] at h; simp at h
    · rw [he] at h; simp at h
    · rw [he] at h
      dsimp only at h
      obtain rfl := Option.some.inj h
      obtain ⟨a, hrev, hshape⟩ := v2race_mode env u (jsOrStr cq "latest") (v2arg env mq)
        (V2Ret.uploaded rs) hv
      cases hva : v2arg env mq with
      | none =>
        obtain ⟨d, A2, hbad⟩ := hshape.1 hva
        exact absurd hbad (by simp)
      | some m =>
        obtain ⟨raw, hup⟩ := hshape.2 m hva
        obtain ⟨hane, hahex⟩ := revOk_props env.env2 a hgit hrev
        injection hup with hrs
        have hext : extractCommit rs (jsOrStr cq "latest") = a := by
          rw [hrs]
          rw [show markerOf a = "// COMMIT_HASH:" ++ a ++ "\n" from by
            unfold markerOf; rw [if_neg hane]]
          exact extractCommit_marker a raw _ hane hahex
        refine ⟨a, u, raw, hq, hane, hahex, hex_ne_latest a hahex, ?_, ?_, ?_⟩
        · rw [hva] at hv
          rw [← hrs]
          exact hv
        · dsimp only; rw [hext]
        · dsimp only; rw [hext]

set_option maxHeartbeats 4000000 in
/-- C3 witness: the theorem at a concrete environment whose pipeline
succeeds end to end in upload mode. -/
theorem c3_revision_witness :
    gitFaithful envC3w.env2 ∧
    ∃ A u raw, (some "https://github.com/o/r" : Option String) = some u ∧ A ≠ "" ∧
      (∀ c ∈ A.data, isHexDigit c = true) ∧ A ≠ "latest" ∧
      v2race envC3w u (jsOrStr none "latest") (v2arg envC3w (some "m1")) =
        Except.ok (V2Ret.uploaded (markerOf A ++ raw)) ∧
      ({ bucket := some "bundler-microservice-servers", path := "m1/ab12cd/"
         files := ["bundle-ab12cd.tar.gz"] } : GcpUpload).files =
        ["bundle-" ++ A ++ ".tar.gz"] ∧
      ({ bucket := some "bundler-microservice-servers", path := "m1/ab12cd/"
         files := ["bundle-ab12cd.tar.gz"] } : GcpUpload).path =
        mcpIdUsed envC3w (some "m1") ++ "/" ++ A ++ "/" :=
  ⟨envGood_gitFaithful,
   c3_revision_reporting envC3w (some "https://github.com/o/r") none (some "m1")
     { bucket := some "bundler-microservice-servers", path := "m1/ab12cd/"
       files := ["bundle-ab12cd.tar.gz"] }
     envGood_gitFaithful (by decide)⟩

/-- C7.  Every `/v2/bundler` response that completes without error (HTTP
200) carries exactly one of the inline artifact data and the remote publish
descriptor - never both, never neither - and which one is present is
decided solely by the `DISABLE_GCP_INTEGRATION` flag. -/
theorem c7_publish_mode_exclusive (env : HttpEnv) (uq cq mq : Option String)
    (h : (v2Handler env uq cq mq).status = 200) :
    (((v2Handler env uq cq mq).dataOut.isSome ∧ (v2Handler env uq cq mq).gcpUpload = none) ∨
     ((v2Handler env uq cq mq).gcpUpload.isSome ∧ (v2Handler env uq cq mq).dataOut = none)) ∧
    ((v2Handler env uq cq mq).dataOut.isSome ↔ env.disableGcp = "true") ∧
    ((v2Handler env uq cq mq).gcpUpload.isSome ↔ ¬ env.disableGcp = "true") := by
  rcases v2Handler_enum env uq cq mq with ⟨_, he⟩ | ⟨u, hq, hu2, hcase⟩
  · rw [he] at h; simp at h
  · rcases hcase with ⟨e, hv, ht, he⟩ | ⟨e, hv, ht, he⟩ | ⟨d, a2, hv, he⟩ | ⟨rs, hv, he⟩
    · rw [he] at h; simp at h
    · rw [he] at h; simp at h
    · by_cases hskip : env.disableGcp = "true"
      · rw [he]; simp [hskip]
      · exfalso
        have hva : v2arg env mq = some (mcpIdUsed env mq) := by
          unfold v2arg; rw [if_neg hskip]
        obtain ⟨a, ha, hshape⟩ := v2race_mode env u (jsOrStr cq "latest") (v2arg env mq)
          (V2Ret.inlineData d a2) hv
        obtain ⟨raw, hbad⟩ := hshape.2 (mcpIdUsed env mq) hva
        simp at hbad
    · by_cases hskip : env.disableGcp = "true"
      · exfalso
        have hva : v2arg env mq = none := by unfold v2arg; rw [if_pos hskip]
        obtain ⟨a, ha, hshape⟩ := v2race_mode env u (jsOrStr cq "latest") (v2arg env mq)
          (V2Ret.uploaded rs) hv
        obtain ⟨d, A2, hbad⟩ := hshape.1 hva
        simp at hbad
      · rw [he]; simp [hskip]

set_option maxHeartbeats 4000000 in
/-- C7 witness: the exclusivity theorem at a concrete 200 response of a
fully successful inline-mode build. -/
theorem c7_publish_mode_witness :
    (((v2Handler envC7w (some "https://github.com/o/r") none none).dataOut.isSome ∧
      (v2Handler envC7w (some "https://github.com/o/r") none none).gcpUpload = none) ∨
     ((v2Handler envC7w (some "https://github.com/o/r") none none).gcpUpload.isSome ∧
      (v2Handler envC7w (some "https://github.com/o/r") none none).dataOut = none)) ∧
    ((v2Handler envC7w (some "https://github.com/o/r") none none).dataOut.isSome ↔
      envC7w.disableGcp = "true") ∧
    ((v2Handler envC7w (some "https://github.com/o/r") none none).gcpUpload.isSome ↔
      ¬ envC7w.disableGcp = "true") :=
  c7_publish_mode_exclusive envC7w (some "https://github.com/o/r") none none (by decide)

/-- C8 (counterexample).  The claim says no error response of either
endpoint ever contains an internal stack trace.  The `/v2/bundler` 500
response sets `details` to the stack of the thrown error
(src/index.ts 552-559). -/
theorem c8_stack_leak_counterexample :
    (v2Handler envC8 (some "https://github.com/o/r") none (some "m")).status = 500 ∧
    (v2Handler envC8 (some "https://github.com/o/r") none (some "m")).details =
      some "Error: spawn ENOENT\n    at ChildProcess" := by decide

/-- C8 (amended).  The legacy `/bundler` endpoint never includes details or
stack traces: its body carries only one of three fixed messages on
non-200 statuses.  On `/v2/bundler` the timeout response carries the fixed
timeout message and no details, but the generic 500 response exposes the
raced error object: its message and its stack in the `details` field. -/
theorem c8_error_bodies_amended :
    (∀ (env : HttpEnv) (uq c2q fq : Option String),
      (v1Handler env uq c2q fq).details = none ∧
      ((v1Handler env uq c2q fq).status ≠ 200 →
        (v1Handler env uq c2q fq).errMsg = some "Github url is required" ∨
        (v1Handler env uq c2q fq).errMsg = some timeoutRespMsg ∨
        (v1Handler env uq c2q fq).errMsg = some "Failed to build MCP server")) ∧
    (∀ (env : HttpEnv) (uq c2q mq : Option String),
      ((v2Handler env uq c2q mq).status = 504 →
        (v2Handler env uq c2q mq).details = none ∧
        (v2Handler env uq c2q mq).errMsg = some timeoutRespMsg) ∧
      ((v2Handler env uq c2q mq).status = 500 →
        ∃ u e, uq = some u ∧
          v2race env u (jsOrStr c2q "latest") (v2arg env mq) = Except.error e ∧
          strContains e.message "timed out" = false ∧
          (v2Handler env uq c2q mq).errMsg = some e.message ∧
          (v2Handler env uq c2q mq).details = e.stack)) := by
  constructor
  · intro env uq c2q fq
    cases uq with
    | none => exact ⟨rfl, fun _ => Or.inl rfl⟩
    | some u =>
      by_cases hu : u = ""
      · subst hu
        exact ⟨rfl, fun _ => Or.inl rfl⟩
      · cases hv : env.v1fail with
        | some e =>
          by_cases ht : strContains e.message "timed out"
          · have he : v1Handler env (some u) c2q fq =
                { status := 504, errMsg := some timeoutRespMsg } := by
              simp [v1Handler, if_neg hu, hv, ht]
            rw [he]
            exact ⟨rfl, fun _ => Or.inr (Or.inl rfl)⟩
          · have he : v1Handler env (some u) c2q fq =
                { status := 500, errMsg := some "Failed to build MCP server" } := by
              simp [v1Handler, if_neg hu, hv, ht]
            rw [he]
            exact ⟨rfl, fun _ => Or.inr (Or.inr rfl)⟩
        | none =>
          have he : v1Handler env (some u) c2q fq =
              { status := 200, dataOut := some env.v1result } := by
            simp [v1Handler, if_neg hu, hv]
          rw [he]
          exact ⟨rfl, fun hne => absurd rfl hne⟩
  · intro env uq c2q mq
    rcases v2Handler_enum env uq c2q mq with ⟨_, he⟩ | ⟨u, hq, hu2, hcase⟩
    · rw [he]
      exact ⟨fun hs => by simp at hs, fun hs => by simp at hs⟩
    · rcases hcase with ⟨e, hv, ht, he⟩ | ⟨e, hv, ht, he⟩ | ⟨d, a2, hv, he⟩ | ⟨rs, hv, he⟩
      · rw [he]
        exact ⟨fun _ => ⟨rfl, rfl⟩, fun hs => by simp at hs⟩
      · rw [he]
        exact ⟨fun hs => by simp at hs, fun _ => ⟨u, e, hq, hv, ht, rfl, rfl⟩⟩
      · rw [he]
        exact ⟨fun hs => by simp at hs, fun hs => by simp at hs⟩
      · rw [he]
        exact ⟨fun hs => by simp at hs, fun hs => by simp at hs⟩

/-- C8 witness: the amended theorem at concrete error responses. -/
theorem c8_error_bodies_witness :
    ((v1Handler envC8w (some "https://github.com/o/r") none none).details = none) ∧
    ((v1Handler envC8w (some "https://github.com/o/r") none none).errMsg =
        some "Github url is required" ∨
     (v1Handler envC8w (some "https://github.com/o/r") none none).errMsg =
        some timeoutRespMsg ∨
     (v1Handler envC8w (some "https://github.com/o/r") none none).errMsg =
        some "Failed to build MCP server") ∧
    ((v2Handler envC8w (some "https://github.com/o/r") none (some "m")).details = none ∧
     (v2Handler envC8w (some "https://github.com/o/r") none (some "m")).errMsg =
        some timeoutRespMsg) ∧
    (∃ u e, (some "https://github.com/o/r" : Option String) = some u ∧
      v2race envC8 u (jsOrStr none "latest") (v2arg envC8 (some "m")) = Except.error e ∧
      strContains e.message "timed out" = false ∧
      (v2Handler envC8 (some "https://github.com/o/r") none (some "m")).errMsg =
        some e.message ∧
      (v2Handler envC8 (some "https://github.com/o/r") none (some "m")).details = e.stack) :=
  ⟨(c8_error_bodies_amended.1 envC8w (some "https://github.com/o/r") none none).1,
   (c8_error_bodies_amended.1 envC8w (some "https://github.com/o/r") none none).2 (by decide),
   (c8_error_bodies_amended.2 envC8w (some "https://github.com/o/r") none (some "m")).1
     (by decide),
   (c8_error_bodies_amended.2 envC8 (some "https://github.com/o/r") none (some "m")).2
     (by decide)⟩

/-- C9.  The mcpId used by the v2 handler is the query parameter when it is
a non-empty string and otherwise the freshly generated 32-hex-character
identifier, so it is never empty; consequently no input can reach the 400
branch guarded by the missing-mcpId check (src/index.ts 428-433). -/
theorem c9_mcpid_never_missing :
    (∀ (env : HttpEnv) (mq : Option String), mcpIdUsed env mq ≠ "") ∧
    (∀ env : HttpEnv, mcpIdUsed env none = genHex env.randBytes ∧
      (genHex env.randBytes).length = 32 ∧
      ∀ c ∈ (genHex env.randBytes).data, isHexDigit c = true) ∧
    (∀ (env : HttpEnv) (uq cq mq : Option String),
      ¬ ((v2Handler env uq cq mq).status = 400 ∧
         (v2Handler env uq cq mq).errMsg = some mcpIdReqMsg)) := by
  refine ⟨mcpIdUsed_ne, fun env => ⟨rfl, genHex_length _, genHex_all_hex _⟩, ?_⟩
  intro env uq cq mq hc
  rcases v2Handler_enum env uq cq mq with ⟨_, he⟩ | ⟨u, hq, hu2, hcase⟩
  · rw [he] at hc
    exact absurd hc.2 (by decide)
  · rcases hcase with ⟨e, hv, ht, he⟩ | ⟨e, hv, ht, he⟩ | ⟨d, a2, hv, he⟩ | ⟨rs, hv, he⟩ <;>
      rw [he] at hc <;> simp at hc

/-- C9 witness: the theorem at a concrete environment and request. -/
theorem c9_mcpid_witness :
    mcpIdUsed envC9w none ≠ "" ∧
    (mcpIdUsed envC9w none = genHex envC9w.randBytes ∧
      (genHex envC9w.randBytes).length = 32 ∧
      ∀ c ∈ (genHex envC9w.randBytes).data, isHexDigit c = true) ∧
    ¬ ((v2Handler envC9w (some "https://github.com/o/r") none none).status = 400 ∧
       (v2Handler envC9w (some "https://github.com/o/r") none none).errMsg =
         some mcpIdReqMsg) :=
  ⟨c9_mcpid_never_missing.1 envC9w none,
   c9_mcpid_never_missing.2.1 envC9w,
   c9_mcpid_never_missing.2.2 envC9w (some "https://github.com/o/r") none none⟩
